import Mathlib

/-!
# dist_id_shore: the distributed id generator of `DistId.hpp`

A shallow embedding of `src/cpp/DistId.hpp` and `src/cpp/StructArrayStore.hpp`.

* Machine integers are natural numbers; every `uint64_t` operation that can wrap
  is reduced modulo `2 ^ 64` where the source computes it.
* The object state of `IdNode` is the structure `IdNode`; member functions take the
  state and return the new state next to their result.
* The outside world is explicit input: the clocks are streams of readings, the
  datagrams that arrive during a call are a list, the outcome of opening the
  backing file and the sockets is a value.
* The store has the outcome of each `pread` and `pwrite` as input (`ReadWith`,
  `WriteWith`), and so have `AdjustTimetampWith` and `ProcessMulticastWith` for the
  one write they reach. The runs of `IdNode` that the theorems quantify over are
  those on which the disk transfers whole records (`Read`, `Write`,
  `AdjustTimetamp`, `ProcessMulticast`): there a write fails only on a closed
  descriptor or an index out of range.
-/

set_option autoImplicit false

namespace DistId

/-! ## Constants (DistId.hpp 18-23) -/

/-- Length of the listen window in milliseconds (`LISTEN_TIME`, default value). -/
def LISTEN_TIME : Nat := 3000

/-- Number of node ids (`MAX_NODES`). -/
def MAX_NODES : Nat := 1024

/-- Width of the counter field (`COUNTER_BITS`). -/
def COUNTER_BITS : Nat := 10

/-- First counter value that no longer fits (`MAX_COUNTER = 1 << COUNTER_BITS`). -/
def MAX_COUNTER : Nat := 1 <<< COUNTER_BITS

/-- Two-byte mode "UP" read as a `uint16_t` (bytes 0x55 0x50). -/
def UP : Nat := 0x5055

/-- Two-byte mode "RQ" read as a `uint16_t` (bytes 0x52 0x51). -/
def RQ : Nat := 0x5152

/-- Two-byte mode "HW" read as a `uint16_t` (bytes 0x48 0x57). -/
def HW : Nat := 0x5748

/-! ## Clocks -/

/-- A clock is the stream of the readings it will return: `c k` is the reading of
the `k`-th call from now. -/
abbrev Clock := Nat → Nat

/-- One call of a clock function: the reading as a `uint64_t` and the rest of the stream. -/
def Clock.read (c : Clock) : Nat × Clock := (c 0 % 2 ^ 64, fun k => c (k + 1))

/-- `IdNode::GetRtTimestampMs`: wall-clock milliseconds, may jump in both directions. -/
def GetRtTimestampMs (rt : Clock) : Nat × Clock := rt.read

/-- `IdNode::GetMonoTimestampMs`: monotonic milliseconds with arbitrary origin. -/
def GetMonoTimestampMs (mono : Clock) : Nat × Clock := mono.read

/-! ## IdNodeState (DistId.hpp 33-59) -/

/-- Address of a socket as the code uses it: the address in host order and the
port as `GetPort` returns it. -/
structure IPAddress where
  addr : Nat
  port : Nat
deriving DecidableEq, Repr

/-- `IPAddress::GetPort`. -/
def IPAddress.GetPort (a : IPAddress) : Nat := a.port

/-- Record `IdNodeState`, used on disk and on the wire. -/
structure IdNodeState where
  timestamp : Nat
  id : Nat
  port : Nat
  ipaddr : Nat
  mode : Nat
deriving DecidableEq, Repr

/-- The all-zero record, which is what a freshly padded file holds. -/
instance : Inhabited IdNodeState := ⟨⟨0, 0, 0, 0, 0⟩⟩

/-- `IdNodeState::SetMode`. -/
def IdNodeState.SetMode (st : IdNodeState) (m : Nat) : IdNodeState := { st with mode := m }

/-- `IdNodeState::HasMode`. -/
def IdNodeState.HasMode (st : IdNodeState) (m : Nat) : Bool := st.mode == m

/-- `IdNodeState::SetAddress`. -/
def IdNodeState.SetAddress (st : IdNodeState) (a : IPAddress) : IdNodeState :=
  { st with ipaddr := a.addr, port := a.GetPort }

/-! ## StructArrayStore (StructArrayStore.hpp) -/

/-- State of a `StructArrayStore<S>`: the descriptor, the record count given to `Open`
and the backing file as the list of its records. -/
structure StructArrayStore (S : Type) where
  fd : Int
  size : Nat
  file : List S
deriving DecidableEq, Repr

/-- Outcome of the two `open(2)` calls of `StructArrayStore::Open` on the named file. -/
inductive OpenResult (S : Type) where
  | existing (fd : Nat) (file : List S)
  | created (fd : Nat)
  | failed
deriving DecidableEq, Repr

/-- A store as constructed (`fd = -1`); `size` is not set before `Open`. -/
def StructArrayStore.new {S : Type} : StructArrayStore S := { fd := -1, size := 0, file := [] }

/-- What a `pread` call returns, compared with `sizeof(S)` as `Read` compares it:
`whole` is the return value `sizeof(S)`, `short ret` any other return value (an error
or fewer bytes). -/
inductive Pread where
  | whole
  | short (ret : Int)
deriving DecidableEq, Repr

/-- What a `pwrite` call returns, compared with `sizeof(S)` as `Write` compares it:
`whole` is the return value `sizeof(S)`, `short ret file` any other return value,
with `file` the content of the backing file after the call (nothing is assumed
about what an incomplete transfer leaves behind). -/
inductive Pwrite (S : Type) where
  | whole
  | short (ret : Int) (file : List S)
deriving DecidableEq, Repr

/-- `StructArrayStore::Read` with the outcome of its `pread` call as input: `none` is
the result `false`. The index check comes first; a `pread` on a closed descriptor
or past the end of the file cannot return `sizeof(S)`. -/
def StructArrayStore.ReadWith {S : Type} (st : StructArrayStore S) (pread : Pread)
    (index : Nat) : Option S :=
  if index ≥ st.size then none
  else if st.fd < 0 then none
  else match pread with
    | Pread.whole => st.file[index]?
    | Pread.short _ => none

/-- `StructArrayStore::Write` with the outcome of its `pwrite` call as input: the
result `ret == sizeof(S)` and the store afterwards. The index check comes first; a
`pwrite` on a closed descriptor fails and writes nothing; a whole `pwrite` past the
end of the file leaves a hole of zero records (`default`). -/
def StructArrayStore.WriteWith {S : Type} [Inhabited S] (st : StructArrayStore S)
    (pwrite : Pwrite S) (entry : S) (index : Nat) : Bool × StructArrayStore S :=
  if index ≥ st.size then (false, st)
  else if st.fd < 0 then (false, st)
  else match pwrite with
    | Pwrite.whole => (true, { st with
        file := (st.file ++ List.replicate (index + 1 - st.file.length) default).set index entry })
    | Pwrite.short _ file => (false, { st with file := file })

/-- `StructArrayStore::Read` on a disk that transfers whole records: the `pread` of
the call returns `sizeof(S)` whenever the record lies inside the open file. This is
the read of every run of `IdNode` below. -/
def StructArrayStore.Read {S : Type} (st : StructArrayStore S) (index : Nat) : Option S :=
  st.ReadWith Pread.whole index

/-- `StructArrayStore::Write` on a disk that transfers whole records: the `pwrite`
of the call returns `sizeof(S)` on an open descriptor, so that the call fails only
on an index out of range or a closed descriptor. This is the write of every run of
`IdNode` below; a short `pwrite` is the subject of `WriteWith`. -/
def StructArrayStore.Write {S : Type} [Inhabited S] (st : StructArrayStore S) (entry : S)
    (index : Nat) : Bool × StructArrayStore S :=
  st.WriteWith Pwrite.whole entry index

/-- `StructArrayStore::Open`: an existing file is taken as it is, a new file is padded
with `size` zero records. -/
def StructArrayStore.Open {S : Type} [Inhabited S] (r : OpenResult S) (size : Nat) :
    Bool × StructArrayStore S :=
  match r with
  | OpenResult.existing fd file => (true, { fd := fd, size := size, file := file })
  | OpenResult.failed => (false, { fd := -1, size := size, file := [] })
  | OpenResult.created fd =>
    (true, (List.range size).foldl (fun st i => (st.Write default i).2)
      { fd := fd, size := size, file := [] })

/-! ## Datagrams -/

/-- What `mcSocket.Read` delivers: a read of another size than `sizeof(IdNodeState)`,
or a record together with the address it came from. -/
inductive Datagram where
  | unexpected (read : Int)
  | sized (sourceIp : IPAddress) (msgState : IdNodeState)
deriving DecidableEq, Repr

/-- Outcome of opening the two sockets in `InitNode` and the address `getsockname` reports. -/
structure NetEnv where
  uOpen : Int
  mcOpen : Int
  uAddress : IPAddress
deriving DecidableEq, Repr

/-! ## IdNode (DistId.hpp 64-387) -/

/-- Out-of-range exception of `FieldsToId`. -/
inductive IdError where
  | out_of_range (what : String)
deriving DecidableEq, Repr

deriving instance DecidableEq for Except

/-- Member variables of `IdNode`; `emitted` records the datagrams handed to
`EmitState`, oldest first. -/
structure IdNode where
  nodeId : Nat
  minTimeMs : Nat
  deltaTimeMs : Nat
  idCounter : Nat
  state : IdNodeState
  store : StructArrayStore IdNodeState
  uAddress : IPAddress
  initialized : Bool
  hasCollision : Bool
  emitted : List IdNodeState
deriving DecidableEq, Repr

/-- Constructor `IdNode()`; a default `IPAddress` has port `-1`, read back as 65535. -/
def IdNode.new : IdNode :=
  { nodeId := 0, minTimeMs := 0, deltaTimeMs := 0, idCounter := 0, state := default,
    store := StructArrayStore.new, uAddress := ⟨0, 65535⟩, initialized := false,
    hasCollision := false, emitted := [] }

/-- `IdNode::HasCollision`. -/
def IdNode.HasCollision (s : IdNode) : Bool := s.hasCollision

/-- `IdNode::IsValid`. -/
def IdNode.IsValid (s : IdNode) : Bool := s.initialized && !s.HasCollision

/-- `IdNode::FieldsToId` on a `uint64_t` timestamp and `uint16_t` counter and node.
The sum is taken in `uint64_t`. -/
def FieldsToId (timestamp counter node : Nat) : Except IdError Nat :=
  if node ≥ MAX_NODES then
    Except.error (IdError.out_of_range "FieldsToId(): Invalid node id!")
  else if counter ≥ MAX_COUNTER then
    Except.error (IdError.out_of_range "FieldsToId(): Invalid counter value!")
  else
    Except.ok ((((timestamp <<< 20) % 2 ^ 64 + (counter <<< 10)) % 2 ^ 64 + node) % 2 ^ 64)

/-- `IdNode::IdToFields`: the fields `(timestamp, counter, node)` of an id. -/
def IdToFields (id : Nat) : Nat × Nat × Nat :=
  let node := (id &&& 0x3FF) % 2 ^ 16
  let id1 := id >>> 10
  let counter := (id1 &&& 0x3FF) % 2 ^ 16
  let id2 := id1 >>> 10
  (id2, counter, node)

/-- The formula of the specification: `(timestamp << 20) | (counter << 10) | node_id`
as a 64-bit value. -/
def specEncode (timestamp counter node : Nat) : Nat :=
  ((timestamp <<< 20) ||| (counter <<< 10) ||| node) % 2 ^ 64

/-- `IdNode::EmitState`: the record is handed to the socket. -/
def EmitState (st : IdNodeState) (s : IdNode) : IdNode := { s with emitted := s.emitted ++ [st] }

/-- `IdNode::AdjustTimetamp` with the outcome of the `pwrite` of its `store.Write` as
input: new high-water mark, new delta against the monotonic clock, and the own
record handed to the store. The result of `store.Write` is not looked at
(DistId.hpp 313). -/
def AdjustTimetampWith (pwrite : Pwrite IdNodeState) (timestamp : Nat) (s : IdNode)
    (mono : Clock) : IdNode × Clock :=
  let (base, mono1) := GetMonoTimestampMs mono
  let state1 := { s.state with timestamp := timestamp }
  ({ s with
      minTimeMs := timestamp
      deltaTimeMs := (timestamp + 2 ^ 64 - base) % 2 ^ 64
      state := state1
      store := (s.store.WriteWith pwrite state1 s.nodeId).2 }, mono1)

/-- `IdNode::AdjustTimetamp` on a disk that transfers whole records: new high-water
mark, new delta against the monotonic clock, and the own record written back. -/
def AdjustTimetamp (timestamp : Nat) (s : IdNode) (mono : Clock) : IdNode × Clock :=
  AdjustTimetampWith Pwrite.whole timestamp s mono

/-- Control flow of one block of `ProcessMulticast`: an early `return` or falling through. -/
inductive Flow where
  | ret (result : Bool) (s : IdNode)
  | next (s : IdNode)

/-- The node state a block leaves behind. -/
def Flow.node : Flow → IdNode
  | Flow.ret _ s => s
  | Flow.next s => s

/-- The "UP" block of `ProcessMulticast` (DistId.hpp 248-263) with the outcome of the
`pwrite` of its `store.Write` as input; the result of `store.Write` is not looked at. -/
def blockUPWith (pwrite : Pwrite IdNodeState) (sourceIp : IPAddress) (msgState : IdNodeState)
    (s : IdNode) : Flow :=
  if msgState.HasMode UP then
    if msgState.id = s.nodeId then
      if s.uAddress.GetPort ≠ sourceIp.GetPort then
        Flow.ret false { s with hasCollision := true }
      else Flow.next s
    else Flow.next { s with store := (s.store.WriteWith pwrite msgState msgState.id).2 }
  else Flow.next s

/-- The "UP" block of `ProcessMulticast` on a disk that transfers whole records. -/
def blockUP (sourceIp : IPAddress) (msgState : IdNodeState) (s : IdNode) : Flow :=
  blockUPWith Pwrite.whole sourceIp msgState s

/-- The "RQ" block of `ProcessMulticast` (DistId.hpp 265-287). -/
def blockRQ (msgState : IdNodeState) (s : IdNode) : Flow :=
  if msgState.HasMode RQ then
    match s.store.Read msgState.id with
    | none => Flow.ret true s
    | some peerState =>
      if 0 = msgState.timestamp then Flow.ret true s
      else if s.initialized ∧ msgState.id = s.nodeId then
        Flow.next (EmitState (peerState.SetMode UP) s)
      else
        Flow.next (EmitState (peerState.SetMode HW) s)
  else Flow.next s

/-- The "HW" block of `ProcessMulticast` (DistId.hpp 289-300) with the outcome of the
`pwrite` of `AdjustTimetamp` as input. -/
def blockHWWith (pwrite : Pwrite IdNodeState) (msgState : IdNodeState) (s : IdNode)
    (mono : Clock) : IdNode × Clock :=
  if msgState.HasMode HW then
    if msgState.id = s.nodeId then
      if msgState.timestamp > s.minTimeMs then
        AdjustTimetampWith pwrite msgState.timestamp s mono
      else (s, mono)
    else (s, mono)
  else (s, mono)

/-- The "HW" block of `ProcessMulticast` on a disk that transfers whole records. -/
def blockHW (msgState : IdNodeState) (s : IdNode) (mono : Clock) : IdNode × Clock :=
  blockHWWith Pwrite.whole msgState s mono

/-- `IdNode::ProcessMulticast` with the outcome of the `pwrite` of a `store.Write` it
reaches as input; `recv` is `none` when `mcSocket.Wait` times out. A datagram has one
mode, so one call reaches at most one `store.Write`: that of the "UP" block or that
of `AdjustTimetamp` in the "HW" block. -/
def ProcessMulticastWith (pwrite : Pwrite IdNodeState) (recv : Option Datagram) (s : IdNode)
    (mono : Clock) : Bool × IdNode × Clock :=
  if s.HasCollision then (false, s, mono)
  else
    match recv with
    | none => (false, s, mono)
    | some (Datagram.unexpected _) => (true, s, mono)
    | some (Datagram.sized sourceIp msgState) =>
      match blockUPWith pwrite sourceIp msgState s with
      | Flow.ret r s1 => (r, s1, mono)
      | Flow.next s1 =>
        match blockRQ msgState s1 with
        | Flow.ret r s2 => (r, s2, mono)
        | Flow.next s2 =>
          let (s3, mono3) := blockHWWith pwrite msgState s2 mono
          (true, s3, mono3)

/-- `IdNode::ProcessMulticast` on a disk that transfers whole records; `recv` is `none`
when `mcSocket.Wait` times out. -/
def ProcessMulticast (recv : Option Datagram) (s : IdNode) (mono : Clock) :
    Bool × IdNode × Clock :=
  ProcessMulticastWith Pwrite.whole recv s mono

/-- `IdNode::GetCheckedTimestampMs`: the return code and the value left in `timeMs`. -/
def GetCheckedTimestampMs (timeMs : Nat) (s : IdNode) (mono : Clock) : Int × Nat × Clock :=
  let (m, mono1) := GetMonoTimestampMs mono
  let now := (m + s.deltaTimeMs) % 2 ^ 64
  if now < timeMs then (-1, timeMs, mono1)
  else if now = timeMs then (1, timeMs, mono1)
  else (0, now, mono1)

/-- The retry loop of `IdNode::UpdateTimestampInner` with `k` attempts left. -/
def UpdateTimestampInner.loop : Nat → IdNode → Clock → Bool × IdNode × Clock
  | 0, s, mono => (false, s, mono)
  | k + 1, s, mono =>
    match GetCheckedTimestampMs s.minTimeMs s mono with
    | (rc, timeMs, mono1) =>
      if rc = 0 then (true, { s with minTimeMs := timeMs }, mono1)
      else UpdateTimestampInner.loop k { s with minTimeMs := timeMs } mono1

/-- `IdNode::UpdateTimestampInner`: `retry` runs from 0 to 10. -/
def UpdateTimestampInner (s : IdNode) (mono : Clock) : Bool × IdNode × Clock :=
  UpdateTimestampInner.loop 11 s mono

/-- `IdNode::UpdateTimestamp`. -/
def UpdateTimestamp (s : IdNode) (mono : Clock) : Bool × IdNode × Clock :=
  match UpdateTimestampInner s mono with
  | (false, s1, mono1) => (false, s1, mono1)
  | (true, s1, mono1) =>
    let state1 := { s1.state with timestamp := s1.minTimeMs }
    match s1.store.Write state1 s1.nodeId with
    | (false, store1) => (false, { s1 with state := state1, store := store1 }, mono1)
    | (true, store1) =>
      let state2 := state1.SetMode UP
      (true, EmitState state2 { s1 with state := state2, store := store1 }, mono1)

/-- The loop `while (ProcessMulticast(0)) { }` of `GetId` over the datagrams pending
on the socket. -/
def drain : List Datagram → IdNode → Clock → IdNode × Clock
  | [], s, mono =>
    match ProcessMulticast none s mono with
    | (_, s1, mono1) => (s1, mono1)
  | d :: ds, s, mono =>
    match ProcessMulticast (some d) s mono with
    | (true, s1, mono1) => drain ds s1 mono1
    | (false, s1, mono1) => (s1, mono1)

/-- The last three lines of `GetId`: the id of the current fields, then the counter
is incremented. The `uint64_t` counter is passed as a `uint16_t`. -/
def GetId.issue (s : IdNode) (mono : Clock) : Except IdError (Option Nat) × IdNode × Clock :=
  match FieldsToId s.minTimeMs (s.idCounter % 2 ^ 16) s.nodeId with
  | Except.error e => (Except.error e, s, mono)
  | Except.ok id => (Except.ok (some id), { s with idCounter := (s.idCounter + 1) % 2 ^ 64 }, mono)

/-- `IdNode::GetId` with the datagrams `pending` on the multicast socket:
`ok (some id)` is `true` with the id, `ok none` is `false`, `error` is an exception. -/
def GetId (pending : List Datagram) (s : IdNode) (mono : Clock) :
    Except IdError (Option Nat) × IdNode × Clock :=
  match drain pending s mono with
  | (s1, mono1) =>
    if !s1.IsValid then (Except.ok none, s1, mono1)
    else if s1.idCounter ≥ MAX_COUNTER - 1 ∨ s1.minTimeMs = 0 then
      match UpdateTimestamp s1 mono1 with
      | (false, s2, mono2) => (Except.ok none, s2, mono2)
      | (true, s2, mono2) => GetId.issue { s2 with idCounter := 0 } mono2
    else GetId.issue s1 mono1

/-- `IdNode::InitNode`: `disk` is the outcome of opening the state file of `node`,
`net` the outcome of opening the sockets. -/
def InitNode (node : Nat) (disk : OpenResult IdNodeState) (net : NetEnv) (s : IdNode)
    (mono : Clock) : Bool × IdNode × Clock :=
  if node ≥ MAX_NODES then (false, s, mono)
  else
    let s1 := { s with nodeId := node }
    match StructArrayStore.Open disk MAX_NODES with
    | (false, store1) => (false, { s1 with store := store1 }, mono)
    | (true, store1) =>
      match store1.Read node with
      | none => (false, { s1 with store := store1 }, mono)
      | some rec =>
        let state1 := { rec with id := node }
        let store2 := if state1.timestamp = 0 then (store1.Write state1 node).2 else store1
        let s2 := { s1 with state := state1, store := store2 }
        if net.uOpen ≠ 0 then (false, s2, mono)
        else if net.mcOpen ≠ 0 then (false, s2, mono)
        else
          let state2 := (state1.SetAddress net.uAddress).SetMode RQ
          let s3 := EmitState state2 { s2 with uAddress := net.uAddress, state := state2 }
          match AdjustTimetamp state2.timestamp s3 mono with
          | (s4, mono1) => (true, s4, mono1)

/-- The listen loop of `InitNetwork`: one `ProcessMulticast(100)` per entry of `polls`
while the wall clock is before `endTs`. The result is `none` when `polls` is used up
before the wall clock reaches `endTs`; the flag tells whether a collision ended the loop. -/
def InitNetwork.listen (endTs : Nat) :
    List (Option Datagram) → IdNode → Clock → Clock → Option (Bool × IdNode × Clock × Clock)
  | polls, s, mono, rt =>
    match GetRtTimestampMs rt with
    | (now, rt1) =>
      if now < endTs then
        match polls with
        | [] => none
        | p :: ps =>
          match ProcessMulticast p s mono with
          | (_, s1, mono1) =>
            if s1.HasCollision then some (true, s1, mono1, rt1)
            else InitNetwork.listen endTs ps s1 mono1 rt1
      else some (false, s, mono, rt1)

/-- `IdNode::InitNetwork`. -/
def InitNetwork (polls : List (Option Datagram)) (s : IdNode) (mono rt : Clock) :
    Option (Bool × IdNode × Clock × Clock) :=
  match GetRtTimestampMs rt with
  | (t0, rt1) =>
    let endTs := (t0 + LISTEN_TIME) % 2 ^ 64
    match InitNetwork.listen endTs polls s mono rt1 with
    | none => none
    | some (true, s1, mono1, rt2) => some (false, s1, mono1, rt2)
    | some (false, s1, mono1, rt2) =>
      match (if endTs > s1.minTimeMs then AdjustTimetamp endTs s1 mono1 else (s1, mono1)) with
      | (s2, mono2) =>
        let state3 := s2.state.SetMode UP
        some (true, EmitState state3 { s2 with initialized := true, state := state3 }, mono2, rt2)

/-- `IdNode::Initialize`. -/
def Initialize (node : Nat) (disk : OpenResult IdNodeState) (net : NetEnv)
    (polls : List (Option Datagram)) (s : IdNode) (mono rt : Clock) :
    Option (Bool × IdNode × Clock × Clock) :=
  match InitNode node disk net s mono with
  | (true, s1, mono1) => InitNetwork polls s1 mono1 rt
  | (false, s1, mono1) => some (false, s1, mono1, rt)

/-- A run of `GetId` calls, one per entry of `calls` (the datagrams pending at that
call): the ids of the successful calls in order, and the state afterwards. A call
that throws ends the run. -/
def GetIds : List (List Datagram) → IdNode → Clock → List Nat × IdNode × Clock
  | [], s, mono => ([], s, mono)
  | q :: qs, s, mono =>
    match GetId q s mono with
    | (Except.error _, s1, mono1) => ([], s1, mono1)
    | (Except.ok none, s1, mono1) => GetIds qs s1 mono1
    | (Except.ok (some id), s1, mono1) =>
      match GetIds qs s1 mono1 with
      | (ids, s2, mono2) => (id :: ids, s2, mono2)

/-! ## Predicates used by the statements -/

/-- Timestamp of the record the node's own store holds at index `nodeId`, when the
read succeeds. -/
def ownTimestamp (s : IdNode) : Option Nat := (s.store.Read s.nodeId).map (fun r => r.timestamp)

/-- Invariant of a node after `InitNode`: node id and counter fit their 10 bits and
the own record in the store carries the high-water mark. -/
def Inv (s : IdNode) : Prop :=
  s.nodeId < MAX_NODES ∧ s.idCounter < MAX_COUNTER ∧ ownTimestamp s = some s.minTimeMs

/-- Position of a node in the order of ids: the fields of the next id without any wrap. -/
def key (s : IdNode) : Nat := s.minTimeMs * 2 ^ 20 + s.idCounter * 2 ^ 10 + s.nodeId

/-- What message handling leaves alone: the invariant, node id, counter and the
initialized flag stay, and the high-water mark does not decrease. -/
def Keeps (s t : IdNode) : Prop :=
  Inv t ∧ t.nodeId = s.nodeId ∧ t.idCounter = s.idCounter ∧ t.initialized = s.initialized ∧
    s.minTimeMs ≤ t.minTimeMs

/-! ## Scenarios -/

/-- A first life and a restart of the same node on the same state file, each without
any datagram: the node is initialized and asked for one id, then a new `IdNode` is
initialized on the file the first one leaves behind and asked for one id. The result
holds the two answers of `GetId`. -/
def restartRun (node : Nat) (disk : OpenResult IdNodeState) (net : NetEnv) (mono1 rt1 : Clock)
    (fd2 : Nat) (net2 : NetEnv) (mono2 rt2 : Clock) :
    Option (Except IdError (Option Nat) × Except IdError (Option Nat)) :=
  match Initialize node disk net [] IdNode.new mono1 rt1 with
  | some (true, s1, m1, _) =>
    match GetId [] s1 m1 with
    | (r1, s1b, _) =>
      match Initialize node (OpenResult.existing fd2 s1b.store.file) net2 [] IdNode.new mono2 rt2 with
      | some (true, s2, m2, _) => some (r1, (GetId [] s2 m2).1)
      | _ => none
  | _ => none

/-- Node state of an initialization result (a fresh node when there is none). -/
def nodeOf (r : Option (Bool × IdNode × Clock × Clock)) : IdNode :=
  match r with
  | some (_, s, _, _) => s
  | none => IdNode.new

/-- Monotonic clock left by an initialization. -/
def monoOf (r : Option (Bool × IdNode × Clock × Clock)) : Clock :=
  match r with
  | some (_, _, m, _) => m
  | none => fun _ => 0

/-- Wall clock left by an initialization. -/
def rtOf (r : Option (Bool × IdNode × Clock × Clock)) : Clock :=
  match r with
  | some (_, _, _, w) => w
  | none => fun _ => 0

/-- Sockets open, the sending socket bound to port 40000. -/
def demoNet : NetEnv := ⟨0, 0, ⟨0, 40000⟩⟩

/-- Wall clock reading 10000 ms at the start of the listen window and 20000 ms afterwards. -/
def demoRt : Clock := fun k => if k = 0 then 10000 else 20000

/-- Monotonic clock advancing one millisecond per reading, starting at 500. -/
def demoMono : Clock := fun k => 500 + k

/-- Node 1 initialized on a state file of two zero records, nothing received. -/
def demoInit : Option (Bool × IdNode × Clock × Clock) :=
  Initialize 1 (OpenResult.existing 3 [default, default]) demoNet [] IdNode.new demoMono demoRt

/-- Node 0 initialized on a state file of one zero record, nothing received. -/
def demoInitB : Option (Bool × IdNode × Clock × Clock) :=
  Initialize 0 (OpenResult.existing 4 [default]) demoNet [] IdNode.new demoMono demoRt

/-- Three calls of `GetId`: nothing pending, then a high-water hint for node 1 and an
announcement of node 7, then nothing pending. -/
def demoCalls : List (List Datagram) :=
  [[], [Datagram.sized ⟨0, 40001⟩ ⟨50000, 1, 40001, 0, HW⟩,
        Datagram.sized ⟨0, 40002⟩ ⟨777, 7, 40002, 0, UP⟩], []]

/-- Node 1 after the three calls of `demoCalls` and a fourth call with nothing pending:
the answer of the fourth call and the node afterwards. -/
def demoFourth : Except IdError (Option Nat) × IdNode × Clock :=
  GetId [] (GetIds demoCalls (nodeOf demoInit) (monoOf demoInit)).2.1
    (GetIds demoCalls (nodeOf demoInit) (monoOf demoInit)).2.2

/-- An "UP" datagram for node 1 from the node's own port with a foreign timestamp. -/
def demoEcho : Datagram := Datagram.sized ⟨0, 40000⟩ ⟨999999, 1, 40000, 0, UP⟩

/-- Node 1 after the four calls of `demoFourth`: high-water mark 50000, counter 4, port
40000, and the record of node 7 in its store. -/
def demoNode : IdNode := demoFourth.2.1

/-- An "UP" datagram for node 1 sent from port 40001. -/
def demoIntruder : Datagram := Datagram.sized ⟨0, 40001⟩ ⟨5, 1, 40001, 0, UP⟩

/-- An "HW" datagram for node 1 with timestamp 60000. -/
def demoHint : Datagram := Datagram.sized ⟨0, 40001⟩ ⟨60000, 1, 40001, 0, HW⟩

/-- An "RQ" datagram of a node 7 that starts without stored state (timestamp 0). -/
def demoRequest : Datagram := Datagram.sized ⟨0, 40003⟩ ⟨0, 7, 40003, 0, RQ⟩

/-- An "RQ" datagram for node id 0 that carries a timestamp. -/
def demoRequestZero : Datagram := Datagram.sized ⟨0, 40004⟩ ⟨5, 0, 40004, 0, RQ⟩

/-- An "RQ" datagram of node 7 that carries a timestamp. -/
def demoRequestSeven : Datagram := Datagram.sized ⟨0, 40003⟩ ⟨700, 7, 40003, 0, RQ⟩

/-- An open store of four records holding three. -/
def demoStore : StructArrayStore IdNodeState :=
  { fd := 3, size := 4, file := [⟨1, 0, 0, 0, 0⟩, ⟨2, 1, 0, 0, 0⟩, ⟨3, 2, 0, 0, 0⟩] }

/-- The value `now = GetMonoTimestampMs() + deltaTimeMs` that the attempt reading
`mono k` computes in `GetCheckedTimestampMs`. -/
def nowAt (s : IdNode) (mono : Clock) (k : Nat) : Nat := (mono k % 2 ^ 64 + s.deltaTimeMs) % 2 ^ 64

/-- The invariant can be checked on a concrete node. -/
instance (s : IdNode) : Decidable (Inv s) := by
  unfold Inv
  infer_instance

/-- What no operation but `InitNode` and `GetId` changes: node id, counter, the bound
address, the initialized flag and the id in the node's own record. -/
def SameCore (s t : IdNode) : Prop :=
  t.nodeId = s.nodeId ∧ t.idCounter = s.idCounter ∧ t.uAddress = s.uAddress ∧
    t.initialized = s.initialized ∧ t.state.id = s.state.id

/-- Node 1 as `demoNode` with the counter at 1023, so that the advancement is due. -/
def demoDue : IdNode := { demoNode with idCounter := 1023 }

/-- A monotonic clock that stands at 502 for eleven readings and reads 503 afterwards;
with `deltaTimeMs = 49498` the readings give `now = 50000` and then 50001. -/
def demoStuck : Clock := fun k => if k < 11 then 502 else 503

/-- A monotonic clock that reads 500 three times and 510 afterwards; with
`deltaTimeMs = 49498` the readings give `now = 49998` and then 50008. -/
def demoSlow : Clock := fun k => if k < 3 then 500 else 510

/-- States an `IdNode` can be in: the constructed node, and what any member function
that changes the object makes of a reachable state, with arbitrary arguments, clocks
and datagrams. -/
inductive Reachable : IdNode → Prop where
  | new : Reachable IdNode.new
  | InitNode (s : IdNode) (node : Nat) (disk : OpenResult IdNodeState) (net : NetEnv)
      (mono : Clock) : Reachable s → Reachable (DistId.InitNode node disk net s mono).2.1
  | InitNetwork (s : IdNode) (polls : List (Option Datagram)) (mono rt : Clock)
      (r : Bool × IdNode × Clock × Clock) :
      Reachable s → DistId.InitNetwork polls s mono rt = some r → Reachable r.2.1
  | Initialize (s : IdNode) (node : Nat) (disk : OpenResult IdNodeState) (net : NetEnv)
      (polls : List (Option Datagram)) (mono rt : Clock) (r : Bool × IdNode × Clock × Clock) :
      Reachable s → DistId.Initialize node disk net polls s mono rt = some r → Reachable r.2.1
  | GetId (s : IdNode) (q : List Datagram) (mono : Clock) :
      Reachable s → Reachable (DistId.GetId q s mono).2.1
  | ProcessMulticast (s : IdNode) (recv : Option Datagram) (mono : Clock) :
      Reachable s → Reachable (DistId.ProcessMulticast recv s mono).2.1
  | AdjustTimetamp (s : IdNode) (timestamp : Nat) (mono : Clock) :
      Reachable s → Reachable (DistId.AdjustTimetamp timestamp s mono).1
  | UpdateTimestamp (s : IdNode) (mono : Clock) :
      Reachable s → Reachable (DistId.UpdateTimestamp s mono).2.1
  | UpdateTimestampInner (s : IdNode) (mono : Clock) :
      Reachable s → Reachable (DistId.UpdateTimestampInner s mono).2.1
  | EmitState (s : IdNode) (st : IdNodeState) : Reachable s → Reachable (DistId.EmitState st s)

/-- A monotonic clock that stands at 5000. -/
def demoBase : Clock := fun _ => 5000

/-- A monotonic clock that reads 5007, then 5000 again. -/
def demoLater : Clock := fun k => if k = 0 then 5007 else 5000

/-- A new node after `AdjustTimetamp 100` while the monotonic clock reads 5000. -/
def demoAdjusted : IdNode := (AdjustTimetamp 100 IdNode.new demoBase).1

/-- The store that `Open` leaves behind when both `open(2)` calls fail: four records
were asked for, the descriptor stays -1. -/
def demoClosed : StructArrayStore IdNodeState :=
  (StructArrayStore.Open (OpenResult.failed : OpenResult IdNodeState) 4).2

/-- In range, `FieldsToId` returns the plain sum of the three shifted fields, the
timestamp reduced to its low 44 bits. -/
theorem FieldsToId_eq_sum (t c n : Nat) (hc : c < 1024) (hn : n < 1024) :
    FieldsToId t c n = Except.ok (t % 2 ^ 44 * 2 ^ 20 + c * 2 ^ 10 + n) := by
  have h1 : ¬ n ≥ MAX_NODES := by simp [MAX_NODES]; omega
  have h2 : ¬ c ≥ MAX_COUNTER := by simp [MAX_COUNTER, COUNTER_BITS]; omega
  unfold FieldsToId
  rw [if_neg h1, if_neg h2]
  simp only [Nat.shiftLeft_eq]
  congr 1
  omega

/-- The mask and shift steps of `IdToFields` as remainder and quotient. -/
theorem IdToFields_eq_divmod (id : Nat) :
    IdToFields id = (id / 2 ^ 10 / 2 ^ 10, id / 2 ^ 10 % 2 ^ 10, id % 2 ^ 10) := by
  have hm : (0x3FF : Nat) = 2 ^ 10 - 1 := by norm_num
  unfold IdToFields
  simp only [hm, Nat.and_pow_two_sub_one_eq_mod, Nat.shiftRight_eq_div_pow]
  have a : id % 2 ^ 10 % 2 ^ 16 = id % 2 ^ 10 := by omega
  have b : id / 2 ^ 10 % 2 ^ 10 % 2 ^ 16 = id / 2 ^ 10 % 2 ^ 10 := by omega
  rw [a, b]

/-- The bitwise formula of the specification is the sum of the shifted fields. -/
theorem specEncode_eq_sum (t c n : Nat) (hc : c < 1024) (hn : n < 1024) :
    specEncode t c n = (t * 2 ^ 20 + c * 2 ^ 10 + n) % 2 ^ 64 := by
  have e1 : t <<< 20 ||| c <<< 10 = 2 ^ 20 * t + c * 2 ^ 10 := by
    have hlt : c * 2 ^ 10 < 2 ^ 20 := by omega
    rw [Nat.mul_add_lt_is_or hlt t, Nat.shiftLeft_eq, Nat.shiftLeft_eq, Nat.mul_comm t]
  have e2 : 2 ^ 20 * t + c * 2 ^ 10 = 2 ^ 10 * (2 ^ 10 * t + c) := by omega
  have hn2 : n < 2 ^ 10 := by omega
  unfold specEncode
  rw [e1, e2, ← Nat.mul_add_lt_is_or hn2]
  congr 1
  omega

/-- C1: for t < 2^44, c < 1024 and n < 1024, `FieldsToId t c n` returns an id and
`IdToFields` of that id is exactly `(t, c, n)`. -/
theorem C1_IdToFields_FieldsToId (t c n : Nat) (ht : t < 2 ^ 44) (hc : c < 1024)
    (hn : n < 1024) :
    ∃ id, FieldsToId t c n = Except.ok id ∧ IdToFields id = (t, c, n) := by
  refine ⟨_, FieldsToId_eq_sum t c n hc hn, ?_⟩
  rw [IdToFields_eq_divmod]
  have h1 : (t % 2 ^ 44 * 2 ^ 20 + c * 2 ^ 10 + n) / 2 ^ 10 / 2 ^ 10 = t := by omega
  have h2 : (t % 2 ^ 44 * 2 ^ 20 + c * 2 ^ 10 + n) / 2 ^ 10 % 2 ^ 10 = c := by omega
  have h3 : (t % 2 ^ 44 * 2 ^ 20 + c * 2 ^ 10 + n) % 2 ^ 10 = n := by omega
  rw [h1, h2, h3]

/-- Witness of C1 at the fields used by the tests. -/
theorem C1_IdToFields_FieldsToId_witness :
    ∃ id, FieldsToId 1234567 123 234 = Except.ok id ∧ IdToFields id = (1234567, 123, 234) :=
  C1_IdToFields_FieldsToId 1234567 123 234 (by decide) (by decide) (by decide)

/-- C5: for every timestamp (64-bit or not) and in-range counter and node, the sum computed by
`FieldsToId` is the bitwise formula `(t << 20) | (c << 10) | n` modulo 2^64; the node
is bits 0-9 of the id, the counter bits 10-19, and bits 20-63 are the low 44 bits of
the timestamp. -/
theorem C5_FieldsToId_refines_specEncode (t c n : Nat) (hc : c < 1024) (hn : n < 1024) :
    FieldsToId t c n = Except.ok (specEncode t c n) ∧
      specEncode t c n % 2 ^ 10 = n ∧
      specEncode t c n / 2 ^ 10 % 2 ^ 10 = c ∧
      specEncode t c n / 2 ^ 20 = t % 2 ^ 44 := by
  have hs : specEncode t c n = t % 2 ^ 44 * 2 ^ 20 + c * 2 ^ 10 + n := by
    rw [specEncode_eq_sum t c n hc hn]; omega
  rw [hs]
  refine ⟨FieldsToId_eq_sum t c n hc hn, ?_, ?_, ?_⟩ <;> omega

/-- Witness of C5 at a timestamp with bits above bit 43. -/
theorem C5_FieldsToId_refines_specEncode_witness :
    FieldsToId (2 ^ 63 + 5) 1023 1023 = Except.ok (specEncode (2 ^ 63 + 5) 1023 1023) ∧
      specEncode (2 ^ 63 + 5) 1023 1023 % 2 ^ 10 = 1023 ∧
      specEncode (2 ^ 63 + 5) 1023 1023 / 2 ^ 10 % 2 ^ 10 = 1023 ∧
      specEncode (2 ^ 63 + 5) 1023 1023 / 2 ^ 20 = (2 ^ 63 + 5) % 2 ^ 44 :=
  C5_FieldsToId_refines_specEncode (2 ^ 63 + 5) 1023 1023 (by decide) (by decide)

/-- C6: for every timestamp, `FieldsToId` throws `out_of_range` when the node is
at least 1024, throws `out_of_range` when the counter is at least 1024, and returns a
value when both are below 1024. -/
theorem C6_FieldsToId_domain (t c n : Nat) :
    (1024 ≤ n → ∃ what, FieldsToId t c n = Except.error (IdError.out_of_range what)) ∧
    (1024 ≤ c → ∃ what, FieldsToId t c n = Except.error (IdError.out_of_range what)) ∧
    (c < 1024 → n < 1024 → ∃ id, FieldsToId t c n = Except.ok id) := by
  refine ⟨fun h => ?_, fun h => ?_, fun hc hn => ⟨_, FieldsToId_eq_sum t c n hc hn⟩⟩
  · have h1 : n ≥ MAX_NODES := by simpa [MAX_NODES] using h
    exact ⟨_, by unfold FieldsToId; rw [if_pos h1]⟩
  · have h2 : c ≥ MAX_COUNTER := by simpa [MAX_COUNTER, COUNTER_BITS] using h
    unfold FieldsToId
    by_cases h1 : n ≥ MAX_NODES
    · exact ⟨_, by rw [if_pos h1]⟩
    · exact ⟨_, by rw [if_neg h1, if_pos h2]⟩

/-- Witness of C6 at the calls of the test "Invalid ID fields". -/
theorem C6_FieldsToId_domain_witness :
    (∃ what, FieldsToId 1 1 1024 = Except.error (IdError.out_of_range what)) ∧
    (∃ what, FieldsToId 1 1024 1 = Except.error (IdError.out_of_range what)) ∧
    (∃ id, FieldsToId 1 1 1 = Except.ok id) :=
  ⟨(C6_FieldsToId_domain 1 1 1024).1 (by decide),
   (C6_FieldsToId_domain 1 1024 1).2.1 (by decide),
   (C6_FieldsToId_domain 1 1 1).2.2 (by decide) (by decide)⟩

/-- C7: on in-range fields `FieldsToId` is strictly monotone for the lexicographic
order on (timestamp, counter, node). -/
theorem C7_FieldsToId_strictMono (t1 c1 n1 t2 c2 n2 : Nat)
    (ht1 : t1 < 2 ^ 44) (hc1 : c1 < 1024) (hn1 : n1 < 1024)
    (ht2 : t2 < 2 ^ 44) (hc2 : c2 < 1024) (hn2 : n2 < 1024)
    (hlex : t1 < t2 ∨ (t1 = t2 ∧ (c1 < c2 ∨ (c1 = c2 ∧ n1 < n2)))) :
    ∃ id1 id2, FieldsToId t1 c1 n1 = Except.ok id1 ∧ FieldsToId t2 c2 n2 = Except.ok id2 ∧
      id1 < id2 := by
  refine ⟨_, _, FieldsToId_eq_sum t1 c1 n1 hc1 hn1, FieldsToId_eq_sum t2 c2 n2 hc2 hn2, ?_⟩
  omega

/-- Witness of C7 at the test "Mutate counter (assumed order)". -/
theorem C7_FieldsToId_strictMono_witness :
    ∃ id1 id2, FieldsToId 1234567 123 234 = Except.ok id1 ∧
      FieldsToId 1234567 124 234 = Except.ok id2 ∧ id1 < id2 :=
  C7_FieldsToId_strictMono 1234567 123 234 1234567 124 234 (by decide) (by decide)
    (by decide) (by decide) (by decide) (by decide) (by decide)

/-- C8 as stated fails: `FieldsToId 1234567 123 234` is not 0x4D4879D6EA. -/
theorem C8_FieldsToId_example_refuted : FieldsToId 1234567 123 234 ≠ Except.ok 0x4D4879D6EA := by
  decide

/-- C8 amended: `FieldsToId 1234567 123 234` equals 0x12D6871ECEA, which is the value
of `(1234567 << 20) | (123 << 10) | 234`. -/
theorem C8_FieldsToId_example :
    FieldsToId 1234567 123 234 = Except.ok 0x12D6871ECEA ∧
      specEncode 1234567 123 234 = 0x12D6871ECEA := by
  decide

/-! ## The store -/

/-- A write leaves the descriptor and the record count alone. -/
theorem Write_fd_size {S : Type} [Inhabited S] (st : StructArrayStore S) (e : S) (i : Nat) :
    (st.Write e i).2.fd = st.fd ∧ (st.Write e i).2.size = st.size := by
  unfold StructArrayStore.Write StructArrayStore.WriteWith
  split
  · exact ⟨rfl, rfl⟩
  · split
    · exact ⟨rfl, rfl⟩
    · exact ⟨rfl, rfl⟩

/-- A successful read tells that the index is in range, the descriptor open and the
record inside the file. -/
theorem Read_some {S : Type} (st : StructArrayStore S) (i : Nat) (r : S)
    (h : st.Read i = some r) : i < st.size ∧ 0 ≤ st.fd ∧ st.file[i]? = some r := by
  unfold StructArrayStore.Read StructArrayStore.ReadWith at h
  split at h
  · cases h
  · split at h
    · cases h
    · exact ⟨by omega, by omega, h⟩

/-- In range and on an open descriptor a write succeeds and is read back. -/
theorem Read_Write_same {S : Type} [Inhabited S] (st : StructArrayStore S) (e : S) (i : Nat)
    (hi : i < st.size) (hfd : 0 ≤ st.fd) :
    (st.Write e i).1 = true ∧ (st.Write e i).2.Read i = some e := by
  have h1 : ¬ i ≥ st.size := by omega
  have h2 : ¬ st.fd < 0 := by omega
  unfold StructArrayStore.Write StructArrayStore.WriteWith
  rw [if_neg h1, if_neg h2]
  refine ⟨rfl, ?_⟩
  unfold StructArrayStore.Read StructArrayStore.ReadWith
  simp only [if_neg h1, if_neg h2]
  apply List.getElem?_set_self
  simp only [List.length_append, List.length_replicate]
  omega

/-- A write does not change what a successful read at another index returns. -/
theorem Read_Write_other {S : Type} [Inhabited S] (st : StructArrayStore S) (e r : S)
    (i j : Nat) (hij : i ≠ j) (h : st.Read j = some r) :
    (st.Write e i).2.Read j = some r := by
  obtain ⟨hj, hfd, hget⟩ := Read_some st j r h
  have hlen : j < st.file.length := by
    rcases Nat.lt_or_ge j st.file.length with hl | hl
    · exact hl
    · rw [List.getElem?_eq_none hl] at hget; cases hget
  unfold StructArrayStore.Write StructArrayStore.WriteWith
  split
  · exact h
  · split
    · exact h
    · have h1 : ¬ j ≥ st.size := by omega
      have h2 : ¬ st.fd < 0 := by omega
      unfold StructArrayStore.Read StructArrayStore.ReadWith
      simp only [if_neg h1, if_neg h2]
      rw [List.getElem?_set_ne hij, List.getElem?_append_left hlen]
      exact hget

/-! ## Message handling keeps the invariant -/

/-- The "UP" block on a disk that transfers whole records, written out. -/
theorem blockUP_def (sourceIp : IPAddress) (msgState : IdNodeState) (s : IdNode) :
    blockUP sourceIp msgState s =
      if msgState.HasMode UP then
        if msgState.id = s.nodeId then
          if s.uAddress.GetPort ≠ sourceIp.GetPort then
            Flow.ret false { s with hasCollision := true }
          else Flow.next s
        else Flow.next { s with store := (s.store.Write msgState msgState.id).2 }
      else Flow.next s := rfl

/-- The "HW" block on a disk that transfers whole records, written out. -/
theorem blockHW_def (msgState : IdNodeState) (s : IdNode) (mono : Clock) :
    blockHW msgState s mono =
      if msgState.HasMode HW then
        if msgState.id = s.nodeId then
          if msgState.timestamp > s.minTimeMs then AdjustTimetamp msgState.timestamp s mono
          else (s, mono)
        else (s, mono)
      else (s, mono) := rfl

/-- One call of `ProcessMulticast` on a disk that transfers whole records, written out. -/
theorem ProcessMulticast_def (recv : Option Datagram) (s : IdNode) (mono : Clock) :
    ProcessMulticast recv s mono =
      if s.HasCollision then (false, s, mono)
      else
        match recv with
        | none => (false, s, mono)
        | some (Datagram.unexpected _) => (true, s, mono)
        | some (Datagram.sized sourceIp msgState) =>
          match blockUP sourceIp msgState s with
          | Flow.ret r s1 => (r, s1, mono)
          | Flow.next s1 =>
            match blockRQ msgState s1 with
            | Flow.ret r s2 => (r, s2, mono)
            | Flow.next s2 =>
              let (s3, mono3) := blockHW msgState s2 mono
              (true, s3, mono3) := rfl


/-- The invariant makes `Keeps` reflexive. -/
theorem Keeps_refl (s : IdNode) (h : Inv s) : Keeps s s :=
  ⟨h, rfl, rfl, rfl, Nat.le_refl _⟩

/-- Two handling steps compose. -/
theorem Keeps_trans (a b c : IdNode) (h1 : Keeps a b) (h2 : Keeps b c) : Keeps a c := by
  obtain ⟨_, n1, c1, i1, m1⟩ := h1
  obtain ⟨inv2, n2, c2, i2, m2⟩ := h2
  exact ⟨inv2, n2.trans n1, c2.trans c1, i2.trans i1, Nat.le_trans m1 m2⟩

/-- Under the invariant the own record can be read. -/
theorem Inv_read (s : IdNode) (h : Inv s) :
    ∃ r, s.store.Read s.nodeId = some r ∧ r.timestamp = s.minTimeMs := by
  obtain ⟨_, _, h3⟩ := h
  unfold ownTimestamp at h3
  cases hr : s.store.Read s.nodeId with
  | none => rw [hr] at h3; cases h3
  | some r =>
    rw [hr] at h3
    refine ⟨r, rfl, ?_⟩
    simpa using h3

/-- What `AdjustTimetamp` changes: the high-water mark becomes the argument and,
when the own record is readable, its stored timestamp becomes the argument too. -/
theorem AdjustTimetamp_fields (t : Nat) (s : IdNode) (mono : Clock) :
    (AdjustTimetamp t s mono).1.nodeId = s.nodeId ∧
    (AdjustTimetamp t s mono).1.idCounter = s.idCounter ∧
    (AdjustTimetamp t s mono).1.initialized = s.initialized ∧
    (AdjustTimetamp t s mono).1.hasCollision = s.hasCollision ∧
    (AdjustTimetamp t s mono).1.minTimeMs = t ∧
    (∀ r, s.store.Read s.nodeId = some r → ownTimestamp (AdjustTimetamp t s mono).1 = some t) := by
  refine ⟨rfl, rfl, rfl, rfl, rfl, ?_⟩
  intro r hr
  obtain ⟨hi, hfd, _⟩ := Read_some _ _ _ hr
  have hw := (Read_Write_same s.store { s.state with timestamp := t } s.nodeId hi hfd).2
  show Option.map (fun r => r.timestamp)
    ((s.store.Write { s.state with timestamp := t } s.nodeId).2.Read s.nodeId) = some t
  rw [hw]
  rfl

/-- Raising the high-water mark with `AdjustTimetamp` keeps the invariant. -/
theorem AdjustTimetamp_Keeps (t : Nat) (s : IdNode) (mono : Clock) (h : Inv s)
    (ht : s.minTimeMs ≤ t) : Keeps s (AdjustTimetamp t s mono).1 := by
  obtain ⟨r, hr, _⟩ := Inv_read s h
  obtain ⟨f1, f2, f3, _, f5, f6⟩ := AdjustTimetamp_fields t s mono
  refine ⟨⟨?_, ?_, ?_⟩, f1, f2, f3, ?_⟩
  · rw [f1]; exact h.1
  · rw [f2]; exact h.2.1
  · rw [f5]; exact f6 r hr
  · rw [f5]; exact ht

/-- The "UP" block keeps the invariant: it writes at another index only. -/
theorem blockUP_Keeps (src : IPAddress) (msg : IdNodeState) (s : IdNode) (h : Inv s) :
    Keeps s (blockUP src msg s).node := by
  rw [blockUP_def]
  split
  · split
    · split
      · exact ⟨h, rfl, rfl, rfl, Nat.le_refl _⟩
      · exact Keeps_refl s h
    · rename_i hne
      obtain ⟨r, hr, hts⟩ := Inv_read s h
      have hw := Read_Write_other s.store msg r msg.id s.nodeId hne hr
      refine ⟨⟨h.1, h.2.1, ?_⟩, rfl, rfl, rfl, Nat.le_refl _⟩
      show Option.map (fun r => r.timestamp) ((s.store.Write msg msg.id).2.Read s.nodeId)
        = some s.minTimeMs
      rw [hw, ← hts]
      rfl
  · exact Keeps_refl s h

/-- The "RQ" block keeps the invariant: it only emits. -/
theorem blockRQ_Keeps (msg : IdNodeState) (s : IdNode) (h : Inv s) :
    Keeps s (blockRQ msg s).node := by
  unfold blockRQ
  split
  · split
    · exact Keeps_refl s h
    · split
      · exact Keeps_refl s h
      · split
        · exact ⟨h, rfl, rfl, rfl, Nat.le_refl _⟩
        · exact ⟨h, rfl, rfl, rfl, Nat.le_refl _⟩
  · exact Keeps_refl s h

/-- The "HW" block keeps the invariant: it adopts larger timestamps only. -/
theorem blockHW_Keeps (msg : IdNodeState) (s : IdNode) (mono : Clock) (h : Inv s) :
    Keeps s (blockHW msg s mono).1 := by
  rw [blockHW_def]
  split
  · split
    · split
      · rename_i hgt
        exact AdjustTimetamp_Keeps _ s mono h (Nat.le_of_lt hgt)
      · exact Keeps_refl s h
    · exact Keeps_refl s h
  · exact Keeps_refl s h

/-- One call of `ProcessMulticast` keeps the invariant, whatever arrives. -/
theorem ProcessMulticast_Keeps (recv : Option Datagram) (s : IdNode) (mono : Clock)
    (h : Inv s) : Keeps s (ProcessMulticast recv s mono).2.1 := by
  rw [ProcessMulticast_def]
  split
  · exact Keeps_refl s h
  · split
    · exact Keeps_refl s h
    · exact Keeps_refl s h
    · rename_i src msg
      have k1 := blockUP_Keeps src msg s h
      cases hu : blockUP src msg s with
      | ret r s1 => rw [hu] at k1; exact k1
      | next s1 =>
        rw [hu] at k1
        have k2 := blockRQ_Keeps msg s1 k1.1
        dsimp only
        cases hq : blockRQ msg s1 with
        | ret r s2 => rw [hq] at k2; exact Keeps_trans _ _ _ k1 k2
        | next s2 =>
          rw [hq] at k2
          have k3 := blockHW_Keeps msg s2 mono k2.1
          dsimp only
          rcases hh : blockHW msg s2 mono with ⟨s3, mono3⟩
          rw [hh] at k3
          exact Keeps_trans _ _ _ k1 (Keeps_trans _ _ _ k2 k3)

/-- Draining the socket keeps the invariant. -/
theorem drain_Keeps (pending : List Datagram) (s : IdNode) (mono : Clock) (h : Inv s) :
    Keeps s (drain pending s mono).1 := by
  induction pending generalizing s mono with
  | nil => exact ProcessMulticast_Keeps none s mono h
  | cons d ds ih =>
    have k := ProcessMulticast_Keeps (some d) s mono h
    unfold drain
    rcases hp : ProcessMulticast (some d) s mono with ⟨b, s1, mono1⟩
    rw [hp] at k
    cases b with
    | true => exact Keeps_trans _ _ _ k (ih s1 mono1 k.1)
    | false => exact k

/-! ## Advancing the high-water mark and issuing ids -/

/-- Value of `MAX_COUNTER`. -/
theorem MAX_COUNTER_eq : MAX_COUNTER = 1024 := by decide

/-- Value of `MAX_NODES`. -/
theorem MAX_NODES_eq : MAX_NODES = 1024 := rfl

/-- `GetCheckedTimestampMs` returns 0 only with a strictly larger value in `timeMs`,
and leaves `timeMs` alone otherwise. -/
theorem GetCheckedTimestampMs_cases (timeMs : Nat) (s : IdNode) (mono : Clock) :
    ((GetCheckedTimestampMs timeMs s mono).1 = 0 →
        timeMs < (GetCheckedTimestampMs timeMs s mono).2.1) ∧
    ((GetCheckedTimestampMs timeMs s mono).1 ≠ 0 →
        (GetCheckedTimestampMs timeMs s mono).2.1 = timeMs) := by
  unfold GetCheckedTimestampMs
  dsimp only [GetMonoTimestampMs, Clock.read]
  split
  · exact ⟨fun h => (by cases h), fun _ => rfl⟩
  · split
    · exact ⟨fun h => (by cases h), fun _ => rfl⟩
    · refine ⟨fun _ => ?_, fun h => absurd rfl h⟩
      dsimp only
      omega

/-- The retry loop changes nothing but the high-water mark, which grows strictly on
success and stays on failure. -/
theorem UpdateTimestampInner_loop_cases (k : Nat) (s : IdNode) (mono : Clock) :
    ∃ t, (UpdateTimestampInner.loop k s mono).2.1 = { s with minTimeMs := t } ∧
      ((UpdateTimestampInner.loop k s mono).1 = true → s.minTimeMs < t) ∧
      ((UpdateTimestampInner.loop k s mono).1 = false → t = s.minTimeMs) := by
  induction k generalizing mono with
  | zero => exact ⟨s.minTimeMs, rfl, fun h => (by cases h), fun _ => rfl⟩
  | succ k ih =>
    have hc := GetCheckedTimestampMs_cases s.minTimeMs s mono
    unfold UpdateTimestampInner.loop
    rcases hg : GetCheckedTimestampMs s.minTimeMs s mono with ⟨rc, timeMs, mono1⟩
    rw [hg] at hc
    dsimp only at hc ⊢
    by_cases h0 : rc = 0
    · rw [if_pos h0]
      exact ⟨timeMs, rfl, fun _ => hc.1 h0, fun h => by cases h⟩
    · rw [if_neg h0]
      have e : timeMs = s.minTimeMs := hc.2 h0
      subst e
      exact ih mono1

/-- Under the invariant `UpdateTimestamp` either succeeds with a strictly larger
high-water mark written to the own record, or fails and leaves the node as it was. -/
theorem UpdateTimestamp_cases (s : IdNode) (mono : Clock) (h : Inv s) :
    ((UpdateTimestamp s mono).1 = true →
      Keeps s (UpdateTimestamp s mono).2.1 ∧
        (UpdateTimestamp s mono).2.1.hasCollision = s.hasCollision ∧
        s.minTimeMs < (UpdateTimestamp s mono).2.1.minTimeMs) ∧
    ((UpdateTimestamp s mono).1 = false → (UpdateTimestamp s mono).2.1 = s) := by
  obtain ⟨t, hs1, ht, hf⟩ := UpdateTimestampInner_loop_cases 11 s mono
  obtain ⟨r, hr, _⟩ := Inv_read s h
  obtain ⟨hi, hfd, _⟩ := Read_some _ _ _ hr
  unfold UpdateTimestamp UpdateTimestampInner
  rcases hl : UpdateTimestampInner.loop 11 s mono with ⟨b, s1, mono1⟩
  rw [hl] at hs1 ht hf
  dsimp only at hs1 ht hf
  subst hs1
  cases b with
  | false =>
    have e := hf rfl
    subst e
    exact ⟨fun hh => (by cases hh), fun _ => rfl⟩
  | true =>
    have hlt := ht rfl
    dsimp only
    have hw := Read_Write_same s.store { s.state with timestamp := t } s.nodeId hi hfd
    rcases hwr : s.store.Write { s.state with timestamp := t } s.nodeId with ⟨w, store1⟩
    rw [hwr] at hw
    dsimp only at hw
    obtain ⟨hw1, hw2⟩ := hw
    subst hw1
    dsimp only
    refine ⟨fun _ => ⟨⟨⟨h.1, h.2.1, ?_⟩, rfl, rfl, rfl, Nat.le_of_lt hlt⟩, rfl, hlt⟩,
      fun hh => by cases hh⟩
    show Option.map (fun r => r.timestamp) (store1.Read s.nodeId) = some t
    rw [hw2]
    rfl

/-- With node id and counter in range, `GetId.issue` returns the id of the current
fields and increments the counter. -/
theorem GetId_issue_eq (s : IdNode) (mono : Clock) (hn : s.nodeId < 1024)
    (hc : s.idCounter < 1024) :
    GetId.issue s mono =
      (Except.ok (some (s.minTimeMs % 2 ^ 44 * 2 ^ 20 + s.idCounter * 2 ^ 10 + s.nodeId)),
        { s with idCounter := s.idCounter + 1 }, mono) := by
  have e1 : s.idCounter % 2 ^ 16 = s.idCounter := by omega
  have e2 : (s.idCounter + 1) % 2 ^ 64 = s.idCounter + 1 := by omega
  unfold GetId.issue
  rw [e1, FieldsToId_eq_sum _ _ _ hc hn, e2]

/-- The invariant in numbers. -/
theorem Inv_bounds (s : IdNode) (h : Inv s) : s.nodeId < 1024 ∧ s.idCounter < 1024 := by
  obtain ⟨h1, h2, _⟩ := h
  rw [MAX_NODES_eq] at h1
  rw [MAX_COUNTER_eq] at h2
  exact ⟨h1, h2⟩

/-- One call of `GetId` under the invariant: the invariant, the node id and the
initialized flag stay, high-water mark and key do not decrease, no exception is
thrown, and a returned id is the encoding of the high-water mark (low 44 bits), the
counter before its increment and the node id, at or above the key before the call. -/
theorem GetId_step (q : List Datagram) (s : IdNode) (mono : Clock) (h : Inv s) :
    Inv (GetId q s mono).2.1 ∧ (GetId q s mono).2.1.nodeId = s.nodeId ∧
    (GetId q s mono).2.1.initialized = s.initialized ∧
    s.minTimeMs ≤ (GetId q s mono).2.1.minTimeMs ∧
    key s ≤ key (GetId q s mono).2.1 ∧
    ((GetId q s mono).1 = Except.ok none ∨
      ∃ c, (GetId q s mono).2.1.idCounter = c + 1 ∧
        (GetId q s mono).1 = Except.ok (some
          ((GetId q s mono).2.1.minTimeMs % 2 ^ 44 * 2 ^ 20 + c * 2 ^ 10 + s.nodeId)) ∧
        key s ≤ (GetId q s mono).2.1.minTimeMs * 2 ^ 20 + c * 2 ^ 10 + s.nodeId) := by
  have kd := drain_Keeps q s mono h
  unfold GetId
  rcases hd : drain q s mono with ⟨s1, mono1⟩
  rw [hd] at kd
  dsimp only at kd ⊢
  obtain ⟨inv1, n1, c1, i1, m1⟩ := kd
  obtain ⟨hn1, hc1⟩ := Inv_bounds s1 inv1
  have hk1 : key s ≤ key s1 := by
    unfold key
    rw [n1, c1]
    omega
  split
  · exact ⟨inv1, n1, i1, m1, hk1, Or.inl rfl⟩
  · split
    · have hu := UpdateTimestamp_cases s1 mono1 inv1
      rcases hup : UpdateTimestamp s1 mono1 with ⟨b, s2, mono2⟩
      rw [hup] at hu
      dsimp only at hu ⊢
      cases b with
      | false =>
        have e : s2 = s1 := hu.2 rfl
        subst e
        exact ⟨inv1, n1, i1, m1, hk1, Or.inl rfl⟩
      | true =>
        obtain ⟨⟨inv2, n2, c2, i2, m2⟩, _, hlt⟩ := hu.1 rfl
        obtain ⟨hn2, _⟩ := Inv_bounds s2 inv2
        dsimp only
        rw [GetId_issue_eq { s2 with idCounter := 0 } mono2 hn2 (show (0 : Nat) < 1024 by omega)]
        dsimp only
        unfold key at hk1 ⊢
        dsimp only
        refine ⟨⟨inv2.1, (by rw [MAX_COUNTER_eq]; show 0 + 1 < 1024; omega), inv2.2.2⟩, n2.trans n1, i2.trans i1, by omega, by omega,
          Or.inr ⟨0, rfl, by rw [n2, n1], by omega⟩⟩
    · rename_i hcond
      rw [MAX_COUNTER_eq] at hcond
      have hlt : s1.idCounter + 1 < 1024 := by omega
      rw [GetId_issue_eq s1 mono1 hn1 hc1]
      dsimp only
      unfold key at hk1 ⊢
      dsimp only
      refine ⟨⟨inv1.1, (by rw [MAX_COUNTER_eq]; exact hlt), inv1.2.2⟩, n1, i1, m1, by omega,
        Or.inr ⟨s1.idCounter, rfl, by rw [n1], by omega⟩⟩

/-- A run of `GetId` calls under the invariant: the invariant and the node id stay,
every returned id carries the node id in its low 10 bits and a timestamp field not
above the final high-water mark, and while the high-water mark is below 2^44 the ids
are strictly increasing and lie between the key before and the key after the run. -/
theorem GetIds_run (calls : List (List Datagram)) (s : IdNode) (mono : Clock) (h : Inv s) :
    Inv (GetIds calls s mono).2.1 ∧ (GetIds calls s mono).2.1.nodeId = s.nodeId ∧
    (GetIds calls s mono).2.1.initialized = s.initialized ∧
    s.minTimeMs ≤ (GetIds calls s mono).2.1.minTimeMs ∧
    key s ≤ key (GetIds calls s mono).2.1 ∧
    (∀ id ∈ (GetIds calls s mono).1,
      id % 2 ^ 10 = s.nodeId ∧ id / 2 ^ 20 ≤ (GetIds calls s mono).2.1.minTimeMs) ∧
    ((GetIds calls s mono).2.1.minTimeMs < 2 ^ 44 →
      List.Pairwise (fun a b => a < b) (GetIds calls s mono).1 ∧
      ∀ id ∈ (GetIds calls s mono).1, key s ≤ id ∧ id < key (GetIds calls s mono).2.1) := by
  induction calls generalizing s mono with
  | nil =>
    refine ⟨h, rfl, rfl, Nat.le_refl _, Nat.le_refl _, ?_, fun _ => ⟨List.Pairwise.nil, ?_⟩⟩
    · intro id hid; cases hid
    · intro id hid; cases hid
  | cons q qs ih =>
    have st := GetId_step q s mono h
    unfold GetIds
    rcases hg : GetId q s mono with ⟨r, s1, mono1⟩
    rw [hg] at st
    dsimp only at st ⊢
    obtain ⟨inv1, n1, i1, m1, k1, hres⟩ := st
    cases r with
    | error e =>
      rcases hres with hres | ⟨c, _, hres, _⟩
      · cases hres
      · cases hres
    | ok o =>
      have ih1 := ih s1 mono1 inv1
      cases o with
      | none =>
        dsimp only
        obtain ⟨inv2, n2, i2, m2, k2, hmem, hord⟩ := ih1
        refine ⟨inv2, n2.trans n1, i2.trans i1, Nat.le_trans m1 m2, Nat.le_trans k1 k2, ?_, ?_⟩
        · intro id hid
          have := hmem id hid
          rw [n1] at this
          exact this
        · intro hlt
          obtain ⟨hp, hb⟩ := hord hlt
          exact ⟨hp, fun id hid => ⟨Nat.le_trans k1 (hb id hid).1, (hb id hid).2⟩⟩
      | some id0 =>
        dsimp only
        rcases hr : GetIds qs s1 mono1 with ⟨ids, s2, mono2⟩
        rw [hr] at ih1
        dsimp only at ih1 ⊢
        obtain ⟨inv2, n2, i2, m2, k2, hmem, hord⟩ := ih1
        obtain ⟨hn1, hc1⟩ := Inv_bounds s1 inv1
        obtain ⟨hn, _⟩ := Inv_bounds s h
        rcases hres with hres | ⟨c, hc, hres, hkc⟩
        · cases hres
        · have hid0 : id0 = s1.minTimeMs % 2 ^ 44 * 2 ^ 20 + c * 2 ^ 10 + s.nodeId := by
            injection hres with e1
            injection e1
          have hks1 : key s1 = s1.minTimeMs * 2 ^ 20 + (c + 1) * 2 ^ 10 + s.nodeId := by
            unfold key
            rw [hc, n1]
          refine ⟨inv2, n2.trans n1, i2.trans i1, Nat.le_trans m1 m2, Nat.le_trans k1 k2, ?_, ?_⟩
          · intro id hid
            rcases List.mem_cons.mp hid with e | hin
            · subst e
              rw [hid0]
              constructor <;> omega
            · have := hmem id hin
              rw [n1] at this
              exact this
          · intro hlt
            obtain ⟨hp, hb⟩ := hord hlt
            have hlt1 : s1.minTimeMs < 2 ^ 44 := by omega
            have hlow : id0 < key s1 := by rw [hks1, hid0]; omega
            have hge : key s ≤ id0 := by rw [hid0]; omega
            refine ⟨List.pairwise_cons.mpr ⟨fun b hbm => ?_, hp⟩, fun id hid => ?_⟩
            · exact Nat.lt_of_lt_of_le hlow (hb b hbm).1
            · rcases List.mem_cons.mp hid with e | hin
              · subst e
                exact ⟨hge, Nat.lt_of_lt_of_le hlow k2⟩
              · exact ⟨Nat.le_trans k1 (hb id hin).1, (hb id hin).2⟩

/-! ## Initialization establishes the invariant -/

/-- A successful `InitNode` takes the node id, leaves the counter alone and seeds the
high-water mark with the timestamp of the own record as read from the opened file;
afterwards the own record in the store carries that timestamp. -/
theorem InitNode_true (node : Nat) (disk : OpenResult IdNodeState) (net : NetEnv) (s : IdNode)
    (mono : Clock) (h : (InitNode node disk net s mono).1 = true) :
    node < 1024 ∧ (InitNode node disk net s mono).2.1.nodeId = node ∧
    (InitNode node disk net s mono).2.1.idCounter = s.idCounter ∧
    ∃ r, (StructArrayStore.Open disk MAX_NODES).2.Read node = some r ∧
      (InitNode node disk net s mono).2.1.minTimeMs = r.timestamp ∧
      ownTimestamp (InitNode node disk net s mono).2.1 = some r.timestamp := by
  generalize hres : InitNode node disk net s mono = res at h ⊢
  unfold InitNode at hres
  split at hres
  · subst hres; cases h
  · rename_i hnode
    rw [MAX_NODES_eq] at hnode
    dsimp only at hres
    split at hres
    · subst hres; cases h
    · rename_i store1 hopen
      split at hres
      · subst hres; cases h
      · rename_i r hread
        split at hres
        · subst hres; cases h
        · split at hres
          · subst hres; cases h
          · subst hres
            obtain ⟨hi, hfd, _⟩ := Read_some _ _ _ hread
            refine ⟨by omega, rfl, rfl, r, by rw [hopen]; exact hread, rfl, ?_⟩
            have hrd : ∃ r2, (if ({ r with id := node } : IdNodeState).timestamp = 0 then
                (store1.Write { r with id := node } node).2 else store1).Read node = some r2 := by
              split
              · exact ⟨_, (Read_Write_same store1 _ node hi hfd).2⟩
              · exact ⟨_, hread⟩
            obtain ⟨r2, hr2⟩ := hrd
            exact (AdjustTimetamp_fields _ _ mono).2.2.2.2.2 r2 hr2

/-- The listen loop keeps the invariant. -/
theorem listen_Keeps (endTs : Nat) (polls : List (Option Datagram)) (s : IdNode)
    (mono rt : Clock) (h : Inv s) (res : Bool × IdNode × Clock × Clock)
    (hres : InitNetwork.listen endTs polls s mono rt = some res) : Keeps s res.2.1 := by
  induction polls generalizing s mono rt with
  | nil =>
    unfold InitNetwork.listen at hres
    dsimp only [GetRtTimestampMs, Clock.read] at hres
    split at hres
    · cases hres
    · injection hres with e
      subst e
      exact Keeps_refl s h
  | cons p ps ih =>
    unfold InitNetwork.listen at hres
    dsimp only [GetRtTimestampMs, Clock.read] at hres
    split at hres
    · have k := ProcessMulticast_Keeps p s mono h
      rcases hp : ProcessMulticast p s mono with ⟨b, s1, mono1⟩
      rw [hp] at hres k
      dsimp only at hres k
      split at hres
      · injection hres with e
        subst e
        exact k
      · exact Keeps_trans _ _ _ k (ih s1 mono1 _ k.1 hres)
    · injection hres with e
      subst e
      exact Keeps_refl s h

/-- A successful `InitNetwork` keeps the invariant, node id and counter, does not
lower the high-water mark, and marks the node initialized. -/
theorem InitNetwork_true (polls : List (Option Datagram)) (s : IdNode) (mono rt : Clock)
    (h : Inv s) (t : IdNode) (mono1 rt1 : Clock)
    (hres : InitNetwork polls s mono rt = some (true, t, mono1, rt1)) :
    Keeps s { t with initialized := s.initialized } ∧ t.initialized = true := by
  unfold InitNetwork at hres
  dsimp only [GetRtTimestampMs, Clock.read] at hres
  split at hres
  · cases hres
  · cases hres
  · rename_i s1 m1 r2 hl
    have k := listen_Keeps _ polls s _ _ h _ hl
    dsimp only at k
    generalize hadj : (if (rt 0 % 2 ^ 64 + LISTEN_TIME) % 2 ^ 64 > s1.minTimeMs then
      AdjustTimetamp ((rt 0 % 2 ^ 64 + LISTEN_TIME) % 2 ^ 64) s1 m1 else (s1, m1)) = adj at hres
    obtain ⟨s2, m2⟩ := adj
    dsimp only at hres
    have k2 : Keeps s1 s2 := by
      split at hadj
      · rename_i hgt
        have ka := AdjustTimetamp_Keeps _ s1 m1 k.1 (Nat.le_of_lt hgt)
        rw [hadj] at ka
        exact ka
      · injection hadj with e4 _
        subst e4
        exact Keeps_refl _ k.1
    obtain ⟨inv2, n2, c2, i2, t2⟩ := Keeps_trans _ _ _ k k2
    injection hres with e
    injection e with _ e2
    injection e2 with e3 _
    subst e3
    exact ⟨⟨inv2, n2, c2, rfl, t2⟩, rfl⟩

/-- A successful `Initialize` of a node whose counter is zero, as it is after the
constructor, yields the invariant, the requested node id below 1024, a zero counter
and the initialized flag. -/
theorem Initialize_true (node : Nat) (disk : OpenResult IdNodeState) (net : NetEnv)
    (polls : List (Option Datagram)) (s0 : IdNode) (hc0 : s0.idCounter = 0) (mono rt : Clock)
    (t : IdNode) (mono1 rt1 : Clock)
    (hres : Initialize node disk net polls s0 mono rt = some (true, t, mono1, rt1)) :
    Inv t ∧ t.nodeId = node ∧ node < 1024 ∧ t.idCounter = 0 ∧ t.initialized = true := by
  unfold Initialize at hres
  have hn := InitNode_true node disk net s0 mono
  rcases hi : InitNode node disk net s0 mono with ⟨b, s1, m1⟩
  rw [hi] at hres hn
  dsimp only at hres hn
  cases b with
  | false => cases hres
  | true =>
    dsimp only at hres
    obtain ⟨hlt, hid, hcnt, r, _, hmin, hown⟩ := hn rfl
    have inv1 : Inv s1 := by
      refine ⟨by rw [hid, MAX_NODES_eq]; exact hlt, ?_, by rw [hmin]; exact hown⟩
      rw [hcnt, MAX_COUNTER_eq, hc0]
      omega
    obtain ⟨⟨inv2, n2, c2, _, _⟩, hinit⟩ := InitNetwork_true polls s1 m1 rt inv1 t mono1 rt1 hres
    exact ⟨inv2, n2.trans hid, hlt, (c2.trans hcnt).trans hc0, hinit⟩

/-- A newly created file holds `size` zero records after the padding loop of `Open`. -/
theorem Open_created {S : Type} [Inhabited S] (fd size : Nat) :
    StructArrayStore.Open (OpenResult.created fd : OpenResult S) size =
      (true, { fd := fd, size := size, file := List.replicate size default }) := by
  have pad : ∀ n, n ≤ size →
      (List.range n).foldl (fun st i => (StructArrayStore.Write st (default : S) i).2)
        { fd := (fd : Int), size := size, file := [] } =
      { fd := fd, size := size, file := List.replicate n default } := by
    intro n
    induction n with
    | zero => intro _; rfl
    | succ n ih =>
      intro hn
      rw [List.range_succ, List.foldl_append, ih (by omega)]
      simp only [List.foldl_cons, List.foldl_nil]
      unfold StructArrayStore.Write StructArrayStore.WriteWith
      have h1 : ¬ n ≥ size := by omega
      have h2 : ¬ ((fd : Int) < 0) := by omega
      simp only [if_neg h1, if_neg h2, List.length_replicate]
      congr 1
      have e : n + 1 - n = 1 := by omega
      rw [e]
      apply List.ext_getElem?
      intro i
      rcases Nat.lt_trichotomy i n with hlt | heq | hgt
      · rw [List.getElem?_set_ne (by omega), List.getElem?_append_left (by simpa using hlt)]
        simp only [List.getElem?_replicate]
        rw [if_pos hlt, if_pos (by omega)]
      · subst heq
        rw [List.getElem?_set_self (by simp)]
        simp only [List.getElem?_replicate]
        rw [if_pos (by omega)]
      · rw [List.getElem?_set_ne (by omega), List.getElem?_eq_none (by simp; omega),
          List.getElem?_eq_none (by simp; omega)]
  unfold StructArrayStore.Open
  simp only [pad size (Nat.le_refl _)]

/-- Initializing on a newly created state file is initializing on a file of 1024
zero records. -/
theorem Initialize_created (node fd : Nat) (net : NetEnv) (polls : List (Option Datagram))
    (s : IdNode) (mono rt : Clock) :
    Initialize node (OpenResult.created fd) net polls s mono rt =
      Initialize node (OpenResult.existing fd (List.replicate 1024 default)) net polls s mono rt := by
  unfold Initialize InitNode
  rw [Open_created]
  rfl

/-! ## The claims about a running node -/

/-- C2: after a successful `Initialize`, for every run of `GetId` calls with arbitrary
pending datagrams and clock readings that ends with the high-water mark below 2^44,
the ids returned by the successful calls are strictly increasing in the order of the
calls (each is smaller than every later one, in particular than the next one). -/
theorem C2_successive_ids_increase (node : Nat) (disk : OpenResult IdNodeState) (net : NetEnv)
    (polls : List (Option Datagram)) (mono rt : Clock) (s0 : IdNode) (mono0 rt0 : Clock)
    (calls : List (List Datagram))
    (hinit : Initialize node disk net polls IdNode.new mono rt = some (true, s0, mono0, rt0))
    (hhw : (GetIds calls s0 mono0).2.1.minTimeMs < 2 ^ 44) :
    List.Pairwise (fun id1 id2 => id1 < id2) (GetIds calls s0 mono0).1 := by
  obtain ⟨inv0, _⟩ := Initialize_true node disk net polls IdNode.new rfl mono rt s0 mono0 rt0 hinit
  exact ((GetIds_run calls s0 mono0 inv0).2.2.2.2.2.2 hhw).1

/-- C3: two nodes initialized with distinct node ids never return the same id,
whatever datagrams and clock readings each of them sees. -/
theorem C3_distinct_nodes_distinct_ids (nodeA nodeB : Nat) (diskA diskB : OpenResult IdNodeState)
    (netA netB : NetEnv) (pollsA pollsB : List (Option Datagram)) (monoA rtA monoB rtB : Clock)
    (sA sB : IdNode) (mA rA mB rB : Clock) (callsA callsB : List (List Datagram))
    (hA : Initialize nodeA diskA netA pollsA IdNode.new monoA rtA = some (true, sA, mA, rA))
    (hB : Initialize nodeB diskB netB pollsB IdNode.new monoB rtB = some (true, sB, mB, rB))
    (hne : nodeA ≠ nodeB) :
    nodeA < 1024 ∧ nodeB < 1024 ∧
      ∀ a ∈ (GetIds callsA sA mA).1, ∀ b ∈ (GetIds callsB sB mB).1, a ≠ b := by
  obtain ⟨invA, idA, ltA, _⟩ :=
    Initialize_true nodeA diskA netA pollsA IdNode.new rfl monoA rtA sA mA rA hA
  obtain ⟨invB, idB, ltB, _⟩ :=
    Initialize_true nodeB diskB netB pollsB IdNode.new rfl monoB rtB sB mB rB hB
  refine ⟨ltA, ltB, fun a ha b hb hab => ?_⟩
  have h1 := ((GetIds_run callsA sA mA invA).2.2.2.2.2.1 a ha).1
  have h2 := ((GetIds_run callsB sB mB invB).2.2.2.2.2.1 b hb).1
  rw [idA] at h1
  rw [idB] at h2
  rw [hab] at h1
  exact hne (h1.symm.trans h2)

/-- Witness of C2: node 1 on a two-record file, three calls with a high-water hint
arriving before the second; the three ids are increasing. -/
theorem C2_successive_ids_increase_witness :
    demoInit = some (true, nodeOf demoInit, monoOf demoInit, rtOf demoInit) ∧
    (GetIds demoCalls (nodeOf demoInit) (monoOf demoInit)).1 =
      [13631488001, 52428801025, 52428802049] ∧
    List.Pairwise (fun id1 id2 => id1 < id2)
      (GetIds demoCalls (nodeOf demoInit) (monoOf demoInit)).1 :=
  ⟨rfl, by decide,
    C2_successive_ids_increase 1 (OpenResult.existing 3 [default, default]) demoNet []
      demoMono demoRt (nodeOf demoInit) (monoOf demoInit) (rtOf demoInit) demoCalls rfl
      (by decide)⟩

/-- Witness of C3: nodes 1 and 0 with the same clocks and the same pending datagrams. -/
theorem C3_distinct_nodes_distinct_ids_witness :
    (GetIds demoCalls (nodeOf demoInit) (monoOf demoInit)).1 =
      [13631488001, 52428801025, 52428802049] ∧
    (GetIds demoCalls (nodeOf demoInitB) (monoOf demoInitB)).1 =
      [13631488000, 13631489024, 13631490048] ∧
    ((1 : Nat) < 1024 ∧ (0 : Nat) < 1024 ∧
      ∀ a ∈ (GetIds demoCalls (nodeOf demoInit) (monoOf demoInit)).1,
        ∀ b ∈ (GetIds demoCalls (nodeOf demoInitB) (monoOf demoInitB)).1, a ≠ b) :=
  ⟨by decide, by decide,
    C3_distinct_nodes_distinct_ids 1 0 (OpenResult.existing 3 [default, default])
      (OpenResult.existing 4 [default]) demoNet demoNet [] [] demoMono demoRt demoMono demoRt
      (nodeOf demoInit) (nodeOf demoInitB) (monoOf demoInit) (rtOf demoInit)
      (monoOf demoInitB) (rtOf demoInitB) demoCalls demoCalls rfl rfl (by decide)⟩


/-- The restart scenario on a newly created file is the scenario on 1024 zero records. -/
theorem restartRun_created (node fd : Nat) (net : NetEnv) (mono1 rt1 : Clock)
    (fd2 : Nat) (net2 : NetEnv) (mono2 rt2 : Clock) :
    restartRun node (OpenResult.created fd) net mono1 rt1 fd2 net2 mono2 rt2 =
      restartRun node (OpenResult.existing fd (List.replicate 1024 default)) net mono1 rt1
        fd2 net2 mono2 rt2 := by
  unfold restartRun
  rw [Initialize_created]

/-- C4 fails on the code: node 1 starts on a newly created state file, the listen
window ends at wall time 13000 and the first `GetId` returns 13631488001 (timestamp
13000, counter 0, node 1). The node is restarted on the same file while the wall clock
reads 5000, so the listen window ends at 8000, not later than the persisted 13000;
the first `GetId` of the new node returns 13631488001 again. -/
theorem C4_restart_reissues_id :
    restartRun 1 (OpenResult.created 3) demoNet demoMono demoRt
      4 demoNet (fun _ => 100) (fun k => if k = 0 then 5000 else 9000) =
      some (Except.ok (some 13631488001), Except.ok (some 13631488001)) := by
  rw [restartRun_created]
  decide!

/-- C10: after every call of `GetId` on an initialized node, successful or not, the
record at index `nodeId` of its own store can be read and carries the high-water mark
`minTimeMs`; and whatever datagram is processed next, the node id stays and the own
record still carries the high-water mark of the state after processing. -/
theorem C10_own_record_carries_high_water (node : Nat) (disk : OpenResult IdNodeState)
    (net : NetEnv) (polls : List (Option Datagram)) (mono rt : Clock) (s0 : IdNode)
    (mono0 rt0 : Clock) (calls : List (List Datagram)) (q : List Datagram)
    (hinit : Initialize node disk net polls IdNode.new mono rt = some (true, s0, mono0, rt0)) :
    (∃ r, (GetId q (GetIds calls s0 mono0).2.1 (GetIds calls s0 mono0).2.2).2.1.store.Read
          (GetId q (GetIds calls s0 mono0).2.1 (GetIds calls s0 mono0).2.2).2.1.nodeId = some r ∧
        r.timestamp =
          (GetId q (GetIds calls s0 mono0).2.1 (GetIds calls s0 mono0).2.2).2.1.minTimeMs) ∧
    ∀ (d : Datagram) (m : Clock) (t : IdNode),
      t = (ProcessMulticast (some d)
        (GetId q (GetIds calls s0 mono0).2.1 (GetIds calls s0 mono0).2.2).2.1 m).2.1 →
      t.nodeId = (GetId q (GetIds calls s0 mono0).2.1 (GetIds calls s0 mono0).2.2).2.1.nodeId ∧
        ∃ r, t.store.Read t.nodeId = some r ∧ r.timestamp = t.minTimeMs := by
  obtain ⟨inv0, _⟩ := Initialize_true node disk net polls IdNode.new rfl mono rt s0 mono0 rt0 hinit
  obtain ⟨invF, _⟩ := GetIds_run calls s0 mono0 inv0
  obtain ⟨inv1, _⟩ := GetId_step q _ (GetIds calls s0 mono0).2.2 invF
  refine ⟨Inv_read _ inv1, fun d m t ht => ?_⟩
  obtain ⟨inv2, n2, _⟩ := ProcessMulticast_Keeps (some d) _ m inv1
  subst ht
  exact ⟨n2, Inv_read _ inv2⟩

/-- Witness of C10: node 1 after the calls of `demoCalls` and one more successful call;
the own record is read back with the high-water mark 50000, also after an "UP"
datagram for node 1 that carries another timestamp. -/
theorem C10_own_record_carries_high_water_witness :
    demoFourth.1 = Except.ok (some 52428803073) ∧ demoFourth.2.1.minTimeMs = 50000 ∧
    (∃ r, demoFourth.2.1.store.Read demoFourth.2.1.nodeId = some r ∧
      r.timestamp = demoFourth.2.1.minTimeMs) ∧
    (∃ r, (ProcessMulticast (some demoEcho) demoFourth.2.1 demoMono).2.1.store.Read
        (ProcessMulticast (some demoEcho) demoFourth.2.1 demoMono).2.1.nodeId = some r ∧
      r.timestamp = (ProcessMulticast (some demoEcho) demoFourth.2.1 demoMono).2.1.minTimeMs) :=
  ⟨by decide, by decide,
    (C10_own_record_carries_high_water 1 (OpenResult.existing 3 [default, default]) demoNet []
      demoMono demoRt (nodeOf demoInit) (monoOf demoInit) (rtOf demoInit) demoCalls [] rfl).1,
    ((C10_own_record_carries_high_water 1 (OpenResult.existing 3 [default, default]) demoNet []
      demoMono demoRt (nodeOf demoInit) (monoOf demoInit) (rtOf demoInit) demoCalls [] rfl).2
      demoEcho demoMono _ rfl).2⟩

/-! ## Collisions are terminal -/

/-- A node with the collision flag set does not look at the socket. -/
theorem ProcessMulticast_collided (recv : Option Datagram) (s : IdNode) (mono : Clock)
    (h : s.hasCollision = true) : ProcessMulticast recv s mono = (false, s, mono) := by
  rw [ProcessMulticast_def]
  unfold IdNode.HasCollision
  rw [if_pos h]

/-- A node with the collision flag set drains nothing. -/
theorem drain_collided (q : List Datagram) (s : IdNode) (mono : Clock)
    (h : s.hasCollision = true) : drain q s mono = (s, mono) := by
  cases q with
  | nil => unfold drain; rw [ProcessMulticast_collided none s mono h]
  | cons d ds => unfold drain; rw [ProcessMulticast_collided (some d) s mono h]

/-- A node with the collision flag set refuses every `GetId` and stays as it is. -/
theorem GetId_collided (q : List Datagram) (s : IdNode) (mono : Clock)
    (h : s.hasCollision = true) : GetId q s mono = (Except.ok none, s, mono) := by
  have hv : (!s.IsValid) = true := by
    unfold IdNode.IsValid IdNode.HasCollision
    rw [h]
    simp
  unfold GetId
  rw [drain_collided q s mono h]
  dsimp only
  rw [if_pos hv]

/-- A run of `GetId` calls on a node with the collision flag set returns no id. -/
theorem GetIds_collided (calls : List (List Datagram)) (s : IdNode) (mono : Clock)
    (h : s.hasCollision = true) : GetIds calls s mono = ([], s, mono) := by
  induction calls with
  | nil => rfl
  | cons q qs ih =>
    unfold GetIds
    rw [GetId_collided q s mono h]
    exact ih

/-- The "UP" block flags a collision for the own id from another port. -/
theorem ProcessMulticast_UP_collision (src : IPAddress) (msg : IdNodeState) (s : IdNode)
    (mono : Clock) (hup : msg.HasMode UP = true) (hid : msg.id = s.nodeId)
    (hport : s.uAddress.GetPort ≠ src.GetPort) (hnc : s.hasCollision = false) :
    ProcessMulticast (some (Datagram.sized src msg)) s mono =
      (false, { s with hasCollision := true }, mono) := by
  have h0 : ¬ (s.HasCollision = true) := by
    unfold IdNode.HasCollision
    rw [hnc]
    simp
  rw [ProcessMulticast_def]
  rw [if_neg h0]
  dsimp only
  rw [blockUP_def]
  rw [if_pos hup, if_pos hid, if_pos hport]

/-- `InitNode` does not touch the collision flag. -/
theorem InitNode_hasCollision (node : Nat) (disk : OpenResult IdNodeState) (net : NetEnv)
    (s : IdNode) (mono : Clock) :
    (InitNode node disk net s mono).2.1.hasCollision = s.hasCollision := by
  unfold InitNode
  split
  · rfl
  · dsimp only
    split
    · rfl
    · split
      · rfl
      · split
        · rfl
        · split
          · rfl
          · rfl

/-- `InitNetwork` does not clear the collision flag. -/
theorem InitNetwork_collided (polls : List (Option Datagram)) (s : IdNode) (mono rt : Clock)
    (h : s.hasCollision = true) (r : Bool × IdNode × Clock × Clock)
    (hr : InitNetwork polls s mono rt = some r) : r.2.1.hasCollision = true := by
  have hl : ∀ endTs rt1 res, InitNetwork.listen endTs polls s mono rt1 = some res →
      res.2.1 = s := by
    intro endTs rt1 res hres
    cases polls with
    | nil =>
      unfold InitNetwork.listen at hres
      dsimp only [GetRtTimestampMs, Clock.read] at hres
      split at hres
      · cases hres
      · rw [← Option.some.inj hres]
    | cons p ps =>
      unfold InitNetwork.listen at hres
      dsimp only [GetRtTimestampMs, Clock.read] at hres
      rw [ProcessMulticast_collided p s mono h] at hres
      dsimp only at hres
      have hc : s.HasCollision = true := h
      rw [if_pos hc] at hres
      split at hres
      · rw [← Option.some.inj hres]
      · rw [← Option.some.inj hres]
  unfold InitNetwork at hr
  dsimp only [GetRtTimestampMs, Clock.read] at hr
  split at hr
  · cases hr
  · rename_i s1 m1 r2 hl1
    have e : s1 = s := hl _ _ _ hl1
    rw [← Option.some.inj hr, e]
    exact h
  · rename_i s1 m1 r2 hl1
    have e : s1 = s := hl _ _ _ hl1
    rw [← Option.some.inj hr, e]
    dsimp only
    split
    · have hf := (AdjustTimetamp_fields ((rt 0 % 2 ^ 64 + LISTEN_TIME) % 2 ^ 64) s m1).2.2.2.1
      rcases ha : AdjustTimetamp ((rt 0 % 2 ^ 64 + LISTEN_TIME) % 2 ^ 64) s m1 with ⟨s2, m2⟩
      rw [ha] at hf
      exact hf.trans h
    · exact h

/-! ## One datagram, by mode -/

/-- A record has one mode: "HW" is neither "UP" nor "RQ", and so on. -/
theorem HasMode_exclusive (msg : IdNodeState) :
    (msg.HasMode UP = true → msg.HasMode RQ = false ∧ msg.HasMode HW = false) ∧
    (msg.HasMode RQ = true → msg.HasMode UP = false ∧ msg.HasMode HW = false) ∧
    (msg.HasMode HW = true → msg.HasMode UP = false ∧ msg.HasMode RQ = false) := by
  unfold IdNodeState.HasMode UP RQ HW
  refine ⟨fun h => ?_, fun h => ?_, fun h => ?_⟩ <;>
  · have e := beq_iff_eq.mp h
    rw [e]
    exact ⟨by decide, by decide⟩

/-- A node without collision flag hands a well-sized datagram to the three blocks. -/
theorem ProcessMulticast_sized (src : IPAddress) (msg : IdNodeState) (s : IdNode)
    (mono : Clock) (hnc : s.hasCollision = false) :
    ProcessMulticast (some (Datagram.sized src msg)) s mono =
      (match blockUP src msg s with
      | Flow.ret r s1 => (r, s1, mono)
      | Flow.next s1 =>
        match blockRQ msg s1 with
        | Flow.ret r s2 => (r, s2, mono)
        | Flow.next s2 => (true, (blockHW msg s2 mono).1, (blockHW msg s2 mono).2)) := by
  have h0 : ¬ (s.HasCollision = true) := by
    unfold IdNode.HasCollision
    rw [hnc]
    simp
  rw [ProcessMulticast_def]
  rw [if_neg h0]

/-- An "RQ" datagram passes the "UP" block; the "RQ" block answers it or returns. -/
theorem ProcessMulticast_RQ (src : IPAddress) (msg : IdNodeState) (s : IdNode) (mono : Clock)
    (hnc : s.hasCollision = false) (hrq : msg.HasMode RQ = true) :
    ProcessMulticast (some (Datagram.sized src msg)) s mono =
      (true,
        (match s.store.Read msg.id with
        | none => s
        | some peerState =>
          if 0 = msg.timestamp then s
          else if s.initialized = true ∧ msg.id = s.nodeId then EmitState (peerState.SetMode UP) s
          else EmitState (peerState.SetMode HW) s), mono) := by
  obtain ⟨hup, hhw⟩ := (HasMode_exclusive msg).2.1 hrq
  rw [ProcessMulticast_sized src msg s mono hnc]
  rw [blockUP_def]
  unfold blockRQ blockHW blockHWWith
  simp only [hup, hrq, hhw, Bool.false_eq_true, if_false, if_true]
  cases s.store.Read msg.id with
  | none => rfl
  | some peerState =>
    dsimp only
    by_cases h0 : 0 = msg.timestamp
    · simp only [if_pos h0]
    · simp only [if_neg h0]
      by_cases h1 : s.initialized = true ∧ msg.id = s.nodeId
      · simp only [if_pos h1]
      · simp only [if_neg h1]

/-- C11: an "UP" datagram with the node's own id from another port sets `hasCollision`;
from then on `IsValid` is false, `ProcessMulticast` and `GetId` return failure and leave
the node as it is for every datagram and clock, a run of `GetId` calls returns no id,
and neither `InitNode` nor `InitNetwork` clears the flag. -/
theorem C11_collision_is_terminal (src : IPAddress) (msg : IdNodeState) (s : IdNode)
    (mono : Clock) (hup : msg.HasMode UP = true) (hid : msg.id = s.nodeId)
    (hport : s.uAddress.GetPort ≠ src.GetPort) :
    ∀ t : IdNode, t = (ProcessMulticast (some (Datagram.sized src msg)) s mono).2.1 →
      t.hasCollision = true ∧ t.IsValid = false ∧
      (∀ recv m, ProcessMulticast recv t m = (false, t, m)) ∧
      (∀ q m, GetId q t m = (Except.ok none, t, m)) ∧
      (∀ calls m, GetIds calls t m = ([], t, m)) ∧
      (∀ node disk net m, (InitNode node disk net t m).2.1.hasCollision = true) ∧
      (∀ polls m rt r, InitNetwork polls t m rt = some r → r.2.1.hasCollision = true) := by
  intro t ht
  have hc : t.hasCollision = true := by
    rw [ht]
    cases hs : s.hasCollision with
    | true => rw [ProcessMulticast_collided _ s mono hs]; exact hs
    | false => rw [ProcessMulticast_UP_collision src msg s mono hup hid hport hs]
  refine ⟨hc, ?_, fun recv m => ProcessMulticast_collided recv t m hc,
    fun q m => GetId_collided q t m hc, fun calls m => GetIds_collided calls t m hc,
    fun node disk net m => (InitNode_hasCollision node disk net t m).trans hc,
    fun polls m rt r hr => InitNetwork_collided polls t m rt hc r hr⟩
  unfold IdNode.IsValid IdNode.HasCollision
  rw [hc]
  simp

/-- Witness of C11: node 1 on port 40000 receives an "UP" datagram for node 1 from
port 40001. -/
theorem C11_collision_is_terminal_witness :
    demoNode.IsValid = true ∧
    (ProcessMulticast (some demoIntruder) demoNode demoMono).2.1.hasCollision = true ∧
    (GetId [] (ProcessMulticast (some demoIntruder) demoNode demoMono).2.1 demoMono).1 =
      Except.ok none :=
  ⟨by decide,
    (C11_collision_is_terminal ⟨0, 40001⟩ ⟨5, 1, 40001, 0, UP⟩ demoNode demoMono (by decide)
      (by decide) (by decide) _ rfl).1,
    congrArg Prod.fst ((C11_collision_is_terminal ⟨0, 40001⟩ ⟨5, 1, 40001, 0, UP⟩ demoNode
      demoMono (by decide) (by decide) (by decide) _ rfl).2.2.2.1 [] demoMono)⟩

/-- C14 fails on the code in both directions. Node 1 holds the record of node 7 with
timestamp 777, but the request of node 7 carries timestamp 0 and gets no reply. The
record at index 0 has timestamp zero, but a request for id 0 that carries timestamp 5
is answered with that zero record. -/
theorem C14_request_timestamp_decides :
    demoNode.store.Read 7 = some ⟨777, 7, 40002, 0, UP⟩ ∧
    (ProcessMulticast (some demoRequest) demoNode demoMono).2.1.emitted = demoNode.emitted ∧
    demoNode.store.Read 0 = some ⟨0, 0, 0, 0, 0⟩ ∧
    (ProcessMulticast (some demoRequestZero) demoNode demoMono).2.1.emitted =
      demoNode.emitted ++ [⟨0, 0, 0, 0, HW⟩] := by
  decide

/-- C15: a node without collision flag processes an "RQ" datagram. Either nothing is
emitted, or exactly one record is emitted, and that record is the record stored at
index `msg.id` with only the mode replaced: "UP" when the node is initialized and
`msg.id` is its own id, "HW" otherwise. Nothing but the list of emitted records
changes. A reply is emitted whenever the read succeeds and the request carries a
non-zero timestamp. -/
theorem C15_RQ_reply_shape (src : IPAddress) (msg : IdNodeState) (s : IdNode) (mono : Clock)
    (hnc : s.hasCollision = false) (hrq : msg.HasMode RQ = true) :
    ∀ t : IdNode, t = (ProcessMulticast (some (Datagram.sized src msg)) s mono).2.1 →
      (t = s ∨ ∃ peer, s.store.Read msg.id = some peer ∧
        t = EmitState { peer with mode :=
          if s.initialized = true ∧ msg.id = s.nodeId then UP else HW } s) ∧
      (∀ peer, s.store.Read msg.id = some peer → msg.timestamp ≠ 0 →
        t.emitted = s.emitted ++ [{ peer with mode :=
          if s.initialized = true ∧ msg.id = s.nodeId then UP else HW }]) := by
  intro t ht
  rw [ProcessMulticast_RQ src msg s mono hnc hrq] at ht
  dsimp only at ht
  cases hrd : s.store.Read msg.id with
  | none =>
    rw [hrd] at ht
    exact ⟨Or.inl ht, fun peer h => by cases h⟩
  | some peer =>
    rw [hrd] at ht
    dsimp only at ht
    by_cases h0 : 0 = msg.timestamp
    · rw [if_pos h0] at ht
      exact ⟨Or.inl ht, fun _ _ hne => absurd h0.symm hne⟩
    · rw [if_neg h0] at ht
      have e : t = EmitState { peer with mode :=
          if s.initialized = true ∧ msg.id = s.nodeId then UP else HW } s := by
        rw [ht]
        by_cases h1 : s.initialized = true ∧ msg.id = s.nodeId
        · rw [if_pos h1, if_pos h1]; rfl
        · rw [if_neg h1, if_neg h1]; rfl
      refine ⟨Or.inr ⟨peer, rfl, e⟩, fun peer2 hp _ => ?_⟩
      injection hp with hp
      subst hp
      rw [e]
      rfl

/-- Witness of C15: node 1 answers a request for node 7 with the stored record in mode
"HW". -/
theorem C15_RQ_reply_shape_witness :
    demoNode.store.Read 7 = some ⟨777, 7, 40002, 0, UP⟩ ∧
    (ProcessMulticast (some demoRequestSeven) demoNode demoMono).2.1.emitted =
      demoNode.emitted ++ [⟨777, 7, 40002, 0, HW⟩] :=
  ⟨by decide,
    (C15_RQ_reply_shape ⟨0, 40003⟩ ⟨700, 7, 40003, 0, RQ⟩ demoNode demoMono (by decide)
      (by decide) _ rfl).2 ⟨777, 7, 40002, 0, UP⟩ (by decide) (by decide)⟩

/-! ## The store, continued -/

/-- On a file that holds all `size` records a write changes no read at another index. -/
theorem Read_Write_other_full {S : Type} [Inhabited S] (st : StructArrayStore S) (e : S)
    (i j : Nat) (hij : i ≠ j) (hfull : st.size ≤ st.file.length) :
    (st.Write e i).2.Read j = st.Read j := by
  unfold StructArrayStore.Write StructArrayStore.WriteWith
  split
  · rfl
  · split
    · rfl
    · rename_i h1 h2
      have hz : i + 1 - st.file.length = 0 := by omega
      unfold StructArrayStore.Read StructArrayStore.ReadWith
      dsimp only
      rw [hz, List.replicate_zero, List.append_nil, List.getElem?_set_ne hij]

/-- C19 as stated fails: the store that a failed `Open` leaves behind has a record
count of 4 and `Write` at index 0 returns false on it; and on the open store
`demoStore` a `Write` at index 1 whose `pwrite` returns 10 instead of `sizeof(S)`
returns false. -/
theorem C19_Write_fails_closed_or_short :
    (StructArrayStore.Open (OpenResult.failed : OpenResult IdNodeState) 4).1 = false ∧
    (0 < demoClosed.size ∧ (demoClosed.Write ⟨9, 9, 9, 9, 9⟩ 0).1 = false) ∧
    (0 ≤ demoStore.fd ∧ 1 < demoStore.size ∧
      (demoStore.WriteWith (Pwrite.short 10 demoStore.file) ⟨9, 9, 9, 9, 9⟩ 1).1 = false) := by
  decide

/-- C19 amended: on a store whose descriptor is open, as `Open` leaves it when it
returns true, and for every index below the record count: a `Write` whose `pwrite`
transfers the whole record succeeds, and a following `Read` whose `pread` transfers
the whole record returns the entry; every record that could be read at another index
is read unchanged, and when the file holds all its records every read at another
index gives what it gave before. A `Write` whose `pwrite` returns another count
fails, and so does a `Read` whose `pread` returns another count. Whatever the
`pwrite` returns, the descriptor and the record count stay. -/
theorem C19_Write_then_Read {S : Type} [Inhabited S] (st : StructArrayStore S) (entry : S)
    (index : Nat) (hfd : 0 ≤ st.fd) (hi : index < st.size) :
    (st.WriteWith Pwrite.whole entry index).1 = true ∧
    (st.WriteWith Pwrite.whole entry index).2.ReadWith Pread.whole index = some entry ∧
    (∀ j r, j ≠ index → st.ReadWith Pread.whole j = some r →
      (st.WriteWith Pwrite.whole entry index).2.ReadWith Pread.whole j = some r) ∧
    (st.size ≤ st.file.length →
      ∀ j, j ≠ index →
        (st.WriteWith Pwrite.whole entry index).2.ReadWith Pread.whole j =
          st.ReadWith Pread.whole j) ∧
    (∀ ret file, (st.WriteWith (Pwrite.short ret file) entry index).1 = false) ∧
    (∀ ret, (st.WriteWith Pwrite.whole entry index).2.ReadWith (Pread.short ret) index = none) ∧
    (∀ pw, (st.WriteWith pw entry index).2.fd = st.fd ∧
      (st.WriteWith pw entry index).2.size = st.size) ∧
    (∀ (r : OpenResult S) (size : Nat), (StructArrayStore.Open r size).1 = true →
      0 ≤ (StructArrayStore.Open r size).2.fd ∧ (StructArrayStore.Open r size).2.size = size) := by
  obtain ⟨h1, h2⟩ := Read_Write_same st entry index hi hfd
  have n1 : ¬ index ≥ st.size := by omega
  have n2 : ¬ st.fd < 0 := by omega
  refine ⟨h1, h2, fun j r hj hr => Read_Write_other st entry r index j (Ne.symm hj) hr,
    fun hfull j hj => Read_Write_other_full st entry index j (Ne.symm hj) hfull, ?_, ?_, ?_, ?_⟩
  · intro ret file
    unfold StructArrayStore.WriteWith
    rw [if_neg n1, if_neg n2]
  · intro ret
    unfold StructArrayStore.ReadWith
    split
    · rfl
    · split
      · rfl
      · rfl
  · intro pw
    unfold StructArrayStore.WriteWith
    rw [if_neg n1, if_neg n2]
    cases pw
    · exact ⟨rfl, rfl⟩
    · exact ⟨rfl, rfl⟩
  · intro r size hopen
    cases r with
    | existing fd file => exact ⟨Int.ofNat_nonneg fd, rfl⟩
    | created fd =>
      rw [Open_created]
      exact ⟨Int.ofNat_nonneg fd, rfl⟩
    | failed => cases hopen

/-- Witness of C19: a write at index 1 of a store of four records, and a write at
index 3, past the three records the file holds; a write at index 1 whose `pwrite`
returns 10 fails. -/
theorem C19_Write_then_Read_witness :
    ((demoStore.WriteWith Pwrite.whole ⟨9, 9, 9, 9, 9⟩ 1).1 = true ∧
      (demoStore.WriteWith Pwrite.whole ⟨9, 9, 9, 9, 9⟩ 1).2.ReadWith Pread.whole 1 =
        some ⟨9, 9, 9, 9, 9⟩ ∧
      (demoStore.WriteWith Pwrite.whole ⟨9, 9, 9, 9, 9⟩ 1).2.ReadWith Pread.whole 2 =
        some ⟨3, 2, 0, 0, 0⟩ ∧
      (demoStore.WriteWith (Pwrite.short 10 demoStore.file) ⟨9, 9, 9, 9, 9⟩ 1).1 = false) ∧
    ((demoStore.WriteWith Pwrite.whole ⟨9, 9, 9, 9, 9⟩ 3).1 = true ∧
      (demoStore.WriteWith Pwrite.whole ⟨9, 9, 9, 9, 9⟩ 3).2.ReadWith Pread.whole 3 =
        some ⟨9, 9, 9, 9, 9⟩) :=
  ⟨⟨(C19_Write_then_Read demoStore ⟨9, 9, 9, 9, 9⟩ 1 (by decide) (by decide)).1,
    (C19_Write_then_Read demoStore ⟨9, 9, 9, 9, 9⟩ 1 (by decide) (by decide)).2.1,
    (C19_Write_then_Read demoStore ⟨9, 9, 9, 9, 9⟩ 1 (by decide) (by decide)).2.2.1 2
      ⟨3, 2, 0, 0, 0⟩ (by decide) (by decide),
    (C19_Write_then_Read demoStore ⟨9, 9, 9, 9, 9⟩ 1 (by decide) (by decide)).2.2.2.2.1 10
      demoStore.file⟩,
   ⟨(C19_Write_then_Read demoStore ⟨9, 9, 9, 9, 9⟩ 3 (by decide) (by decide)).1,
    (C19_Write_then_Read demoStore ⟨9, 9, 9, 9, 9⟩ 3 (by decide) (by decide)).2.1⟩⟩

/-- `GetCheckedTimestampMs` in terms of the reading `nowAt`. -/
theorem GetCheckedTimestampMs_eq (timeMs : Nat) (s : IdNode) (mono : Clock) :
    GetCheckedTimestampMs timeMs s mono =
      if nowAt s mono 0 < timeMs then (-1, timeMs, fun k => mono (k + 1))
      else if nowAt s mono 0 = timeMs then (1, timeMs, fun k => mono (k + 1))
      else (0, nowAt s mono 0, fun k => mono (k + 1)) := rfl

/-- When none of the `n` readings is above the high-water mark, the loop fails after
`n` readings and the node is as before. -/
theorem UpdateTimestampInner_loop_fail (n : Nat) (s : IdNode) (mono : Clock)
    (h : ∀ j, j < n → nowAt s mono j ≤ s.minTimeMs) :
    UpdateTimestampInner.loop n s mono = (false, s, fun j => mono (j + n)) := by
  induction n generalizing mono with
  | zero => rfl
  | succ n ih =>
    have h0 := h 0 (by omega)
    unfold UpdateTimestampInner.loop
    rw [GetCheckedTimestampMs_eq]
    have ih1 := ih (fun k => mono (k + 1)) (fun j hj => h (j + 1) (by omega))
    by_cases hlt : nowAt s mono 0 < s.minTimeMs
    · rw [if_pos hlt]
      dsimp only
      rw [if_neg (by decide)]
      exact ih1
    · have heq : nowAt s mono 0 = s.minTimeMs := by omega
      rw [if_neg hlt, if_pos heq]
      dsimp only
      rw [if_neg (by decide)]
      exact ih1

/-- The loop succeeds at the first reading above the high-water mark, provided it is
among the `n` attempts, and sets the high-water mark to that reading. -/
theorem UpdateTimestampInner_loop_success (n : Nat) (s : IdNode) (mono : Clock) (k : Nat)
    (hk : k < n) (hbelow : ∀ j, j < k → nowAt s mono j ≤ s.minTimeMs)
    (habove : s.minTimeMs < nowAt s mono k) :
    UpdateTimestampInner.loop n s mono =
      (true, { s with minTimeMs := nowAt s mono k }, fun j => mono (j + (k + 1))) := by
  induction n generalizing mono k with
  | zero => omega
  | succ n ih =>
    unfold UpdateTimestampInner.loop
    rw [GetCheckedTimestampMs_eq]
    cases k with
    | zero =>
      rw [if_neg (by omega), if_neg (by omega)]
      rfl
    | succ k =>
      have h0 := hbelow 0 (by omega)
      have ih1 := ih (fun i => mono (i + 1)) k (by omega)
        (fun j hj => hbelow (j + 1) (by omega)) habove
      by_cases hlt : nowAt s mono 0 < s.minTimeMs
      · rw [if_pos hlt]
        dsimp only
        rw [if_neg (by decide)]
        exact ih1
      · have heq : nowAt s mono 0 = s.minTimeMs := by omega
        rw [if_neg hlt, if_pos heq]
        dsimp only
        rw [if_neg (by decide)]
        exact ih1

/-- With nothing pending the drain loop leaves node and clock alone. -/
theorem drain_nil (s : IdNode) (mono : Clock) : drain [] s mono = (s, mono) := by
  have h : ProcessMulticast none s mono = (false, s, mono) := by
    rw [ProcessMulticast_def]
    split
    · rfl
    · rfl
  unfold drain
  rw [h]

/-- `GetId` fails and leaves the drained node alone when the advancement is due and
none of its 11 readings is above the high-water mark. -/
theorem GetId_fail_all (q : List Datagram) (s : IdNode) (mono : Clock) (s1 : IdNode)
    (m1 : Clock) (hd : drain q s mono = (s1, m1)) (hv : s1.IsValid = true)
    (hdue : s1.idCounter ≥ MAX_COUNTER - 1 ∨ s1.minTimeMs = 0)
    (h : ∀ j, j < 11 → nowAt s1 m1 j ≤ s1.minTimeMs) :
    GetId q s mono = (Except.ok none, s1, fun j => m1 (j + 11)) := by
  unfold GetId
  rw [hd]
  dsimp only
  rw [if_neg (by rw [hv]; decide), if_pos hdue]
  unfold UpdateTimestamp UpdateTimestampInner
  rw [UpdateTimestampInner_loop_fail 11 s1 m1 h]

/-- `GetId` with the advancement due and attempt `k` the first with a reading above the
high-water mark: under the invariant the call returns the id of (reading, counter 0,
node id), the high-water mark is the reading and the counter is 1 afterwards. -/
theorem GetId_advance (q : List Datagram) (s : IdNode) (mono : Clock) (s1 : IdNode)
    (m1 : Clock) (k : Nat) (hd : drain q s mono = (s1, m1)) (hv : s1.IsValid = true)
    (hinv : Inv s1) (hdue : s1.idCounter ≥ MAX_COUNTER - 1 ∨ s1.minTimeMs = 0)
    (hk : k < 11) (hbelow : ∀ j, j < k → nowAt s1 m1 j ≤ s1.minTimeMs)
    (habove : s1.minTimeMs < nowAt s1 m1 k) :
    (GetId q s mono).1 =
      Except.ok (some (nowAt s1 m1 k % 2 ^ 44 * 2 ^ 20 + 0 * 2 ^ 10 + s1.nodeId)) ∧
    (GetId q s mono).2.1.minTimeMs = nowAt s1 m1 k ∧
    (GetId q s mono).2.1.idCounter = 1 ∧
    (GetId q s mono).2.2 = fun j => m1 (j + (k + 1)) := by
  obtain ⟨r, hr, _⟩ := Inv_read s1 hinv
  obtain ⟨hi, hfd, _⟩ := Read_some _ _ _ hr
  obtain ⟨hn, _⟩ := Inv_bounds s1 hinv
  have hw := (Read_Write_same s1.store { s1.state with timestamp := nowAt s1 m1 k } s1.nodeId
    hi hfd).1
  unfold GetId
  rw [hd]
  dsimp only
  rw [if_neg (by rw [hv]; decide), if_pos hdue]
  unfold UpdateTimestamp UpdateTimestampInner
  rw [UpdateTimestampInner_loop_success 11 s1 m1 k hk hbelow habove]
  dsimp only
  rcases hwr : s1.store.Write { s1.state with timestamp := nowAt s1 m1 k } s1.nodeId
    with ⟨w, store1⟩
  rw [hwr] at hw
  dsimp only at hw
  subst hw
  dsimp only
  rw [GetId_issue_eq _ _ (by exact hn) (by show (0 : Nat) < 1024; omega)]
  exact ⟨rfl, rfl, rfl, rfl⟩

/-! ## What message handling never changes -/

/-- `SameCore` is reflexive. -/
theorem SameCore_refl (s : IdNode) : SameCore s s := ⟨rfl, rfl, rfl, rfl, rfl⟩

/-- `SameCore` composes. -/
theorem SameCore_trans (a b c : IdNode) (h1 : SameCore a b) (h2 : SameCore b c) :
    SameCore a c := by
  obtain ⟨a1, a2, a3, a4, a5⟩ := h1
  obtain ⟨b1, b2, b3, b4, b5⟩ := h2
  exact ⟨b1.trans a1, b2.trans a2, b3.trans a3, b4.trans a4, b5.trans a5⟩

/-- `AdjustTimetamp` keeps the core. -/
theorem AdjustTimetamp_SameCore (t : Nat) (s : IdNode) (mono : Clock) :
    SameCore s (AdjustTimetamp t s mono).1 := ⟨rfl, rfl, rfl, rfl, rfl⟩

/-- The "UP" block keeps the core. -/
theorem blockUP_SameCore (src : IPAddress) (msg : IdNodeState) (s : IdNode) :
    SameCore s (blockUP src msg s).node := by
  rw [blockUP_def]
  split
  · split
    · split
      · exact ⟨rfl, rfl, rfl, rfl, rfl⟩
      · exact SameCore_refl s
    · exact ⟨rfl, rfl, rfl, rfl, rfl⟩
  · exact SameCore_refl s

/-- The "RQ" block keeps the core. -/
theorem blockRQ_SameCore (msg : IdNodeState) (s : IdNode) :
    SameCore s (blockRQ msg s).node := by
  unfold blockRQ
  split
  · split
    · exact SameCore_refl s
    · split
      · exact SameCore_refl s
      · split
        · exact ⟨rfl, rfl, rfl, rfl, rfl⟩
        · exact ⟨rfl, rfl, rfl, rfl, rfl⟩
  · exact SameCore_refl s

/-- The "HW" block keeps the core. -/
theorem blockHW_SameCore (msg : IdNodeState) (s : IdNode) (mono : Clock) :
    SameCore s (blockHW msg s mono).1 := by
  rw [blockHW_def]
  split
  · split
    · split
      · exact AdjustTimetamp_SameCore _ s mono
      · exact SameCore_refl s
    · exact SameCore_refl s
  · exact SameCore_refl s

/-- `ProcessMulticast` keeps the core, whatever arrives and in whatever state. -/
theorem ProcessMulticast_SameCore (recv : Option Datagram) (s : IdNode) (mono : Clock) :
    SameCore s (ProcessMulticast recv s mono).2.1 := by
  rw [ProcessMulticast_def]
  split
  · exact SameCore_refl s
  · split
    · exact SameCore_refl s
    · exact SameCore_refl s
    · rename_i src msg
      have k1 := blockUP_SameCore src msg s
      cases hu : blockUP src msg s with
      | ret r s1 => rw [hu] at k1; exact k1
      | next s1 =>
        rw [hu] at k1
        have k2 := blockRQ_SameCore msg s1
        dsimp only
        cases hq : blockRQ msg s1 with
        | ret r s2 => rw [hq] at k2; exact SameCore_trans _ _ _ k1 k2
        | next s2 =>
          rw [hq] at k2
          have k3 := blockHW_SameCore msg s2 mono
          dsimp only
          rcases hh : blockHW msg s2 mono with ⟨s3, mono3⟩
          rw [hh] at k3
          exact SameCore_trans _ _ _ k1 (SameCore_trans _ _ _ k2 k3)

/-- Draining keeps the core. -/
theorem drain_SameCore (pending : List Datagram) (s : IdNode) (mono : Clock) :
    SameCore s (drain pending s mono).1 := by
  induction pending generalizing s mono with
  | nil => rw [drain_nil]; exact SameCore_refl s
  | cons d ds ih =>
    have k := ProcessMulticast_SameCore (some d) s mono
    unfold drain
    rcases hp : ProcessMulticast (some d) s mono with ⟨b, s1, mono1⟩
    rw [hp] at k
    cases b with
    | true => exact SameCore_trans _ _ _ k (ih s1 mono1)
    | false => exact k

/-- `UpdateTimestamp` keeps the core, whether it succeeds or not. -/
theorem UpdateTimestamp_SameCore (s : IdNode) (mono : Clock) :
    SameCore s (UpdateTimestamp s mono).2.1 := by
  obtain ⟨t, hs1, _, _⟩ := UpdateTimestampInner_loop_cases 11 s mono
  unfold UpdateTimestamp UpdateTimestampInner
  rcases hl : UpdateTimestampInner.loop 11 s mono with ⟨b, s1, mono1⟩
  rw [hl] at hs1
  dsimp only at hs1
  subst hs1
  cases b with
  | false => exact ⟨rfl, rfl, rfl, rfl, rfl⟩
  | true =>
    dsimp only
    rcases s.store.Write { s.state with timestamp := t } s.nodeId with ⟨w, store1⟩
    cases w with
    | false => exact ⟨rfl, rfl, rfl, rfl, rfl⟩
    | true => exact ⟨rfl, rfl, rfl, rfl, rfl⟩

/-- The listen loop keeps the core. -/
theorem listen_SameCore (endTs : Nat) (polls : List (Option Datagram)) (s : IdNode)
    (mono rt : Clock) (res : Bool × IdNode × Clock × Clock)
    (hres : InitNetwork.listen endTs polls s mono rt = some res) : SameCore s res.2.1 := by
  induction polls generalizing s mono rt with
  | nil =>
    unfold InitNetwork.listen at hres
    dsimp only [GetRtTimestampMs, Clock.read] at hres
    split at hres
    · cases hres
    · rw [← Option.some.inj hres]
      exact SameCore_refl s
  | cons p ps ih =>
    unfold InitNetwork.listen at hres
    dsimp only [GetRtTimestampMs, Clock.read] at hres
    split at hres
    · have k := ProcessMulticast_SameCore p s mono
      rcases hp : ProcessMulticast p s mono with ⟨b, s1, mono1⟩
      rw [hp] at hres k
      dsimp only at hres k
      split at hres
      · rw [← Option.some.inj hres]
        exact k
      · exact SameCore_trans _ _ _ k (ih s1 mono1 _ hres)
    · rw [← Option.some.inj hres]
      exact SameCore_refl s

/-! ## The claims about the advancement -/

/-- C17: `s1` and `m1` are node and clock after the drain loop of `GetId`. The
advancement succeeds at the first of its 11 attempts whose reading is above
`minTimeMs`, sets `minTimeMs` to that reading and has then used one clock reading per
attempt; when it is due on a valid node that satisfies the invariant, `GetId` returns
an id with that reading. When the readings of all 11 attempts are at or below
`minTimeMs` (equal or smaller alike) the advancement fails after 11 readings with the
node unchanged, `GetId` returns failure and leaves `minTimeMs` and the counter as the
drain loop left them, and the next call succeeds as soon as the clock gives a reading
above `minTimeMs`. -/
theorem C17_advancement_attempts (q : List Datagram) (s : IdNode) (mono : Clock)
    (s1 : IdNode) (m1 : Clock) (hd : drain q s mono = (s1, m1)) :
    (∀ k, k < 11 → (∀ j, j < k → nowAt s1 m1 j ≤ s1.minTimeMs) →
      s1.minTimeMs < nowAt s1 m1 k →
      UpdateTimestampInner s1 m1 =
        (true, { s1 with minTimeMs := nowAt s1 m1 k }, fun j => m1 (j + (k + 1))) ∧
      (s1.IsValid = true → Inv s1 → (s1.idCounter ≥ MAX_COUNTER - 1 ∨ s1.minTimeMs = 0) →
        (∃ id, (GetId q s mono).1 = Except.ok (some id)) ∧
        (GetId q s mono).2.1.minTimeMs = nowAt s1 m1 k)) ∧
    ((∀ j, j < 11 → nowAt s1 m1 j ≤ s1.minTimeMs) →
      UpdateTimestampInner s1 m1 = (false, s1, fun j => m1 (j + 11)) ∧
      (s1.IsValid = true → (s1.idCounter ≥ MAX_COUNTER - 1 ∨ s1.minTimeMs = 0) →
        GetId q s mono = (Except.ok none, s1, fun j => m1 (j + 11)) ∧
        (Inv s1 → s1.minTimeMs < nowAt s1 m1 11 →
          (∃ id, (GetId [] s1 (fun j => m1 (j + 11))).1 = Except.ok (some id)) ∧
          (GetId [] s1 (fun j => m1 (j + 11))).2.1.minTimeMs = nowAt s1 m1 11))) := by
  refine ⟨fun k hk hbelow habove => ⟨?_, fun hv hinv hdue => ?_⟩, fun hall => ⟨?_, fun hv hdue =>
    ⟨GetId_fail_all q s mono s1 m1 hd hv hdue hall, fun hinv habove => ?_⟩⟩⟩
  · exact UpdateTimestampInner_loop_success 11 s1 m1 k hk hbelow habove
  · obtain ⟨h1, h2, _, _⟩ := GetId_advance q s mono s1 m1 k hd hv hinv hdue hk hbelow habove
    exact ⟨⟨_, h1⟩, h2⟩
  · exact UpdateTimestampInner_loop_fail 11 s1 m1 hall
  · obtain ⟨h1, h2, _, _⟩ := GetId_advance [] s1 (fun j => m1 (j + 11)) s1
      (fun j => m1 (j + 11)) 0 (drain_nil _ _) hv hinv hdue (by omega)
      (fun j hj => absurd hj (Nat.not_lt_zero j)) habove
    exact ⟨⟨_, h1⟩, h2⟩

/-- Witness of C17: node 1 with the counter at 1023. On a clock standing still for
eleven readings `GetId` fails and leaves the node alone, and the next call returns
the id of (50001, 0, 1); on a clock behind for three readings the fourth attempt
succeeds with 50008. -/
theorem C17_advancement_attempts_witness :
    GetId [] demoDue demoStuck = (Except.ok none, demoDue, fun j => demoStuck (j + 11)) ∧
    (GetId [] demoDue (fun j => demoStuck (j + 11))).1 = Except.ok (some 52429848577) ∧
    (GetId [] demoDue (fun j => demoStuck (j + 11))).2.1.minTimeMs = 50001 ∧
    UpdateTimestampInner demoDue demoSlow =
      (true, { demoDue with minTimeMs := 50008 }, fun j => demoSlow (j + 4)) :=
  ⟨(((C17_advancement_attempts [] demoDue demoStuck demoDue demoStuck (drain_nil _ _)).2
      (by decide)).2 (by decide) (by decide)).1,
    by decide,
    ((((C17_advancement_attempts [] demoDue demoStuck demoDue demoStuck (drain_nil _ _)).2
      (by decide)).2 (by decide) (by decide)).2 (by decide) (by decide)).2,
    ((C17_advancement_attempts [] demoDue demoSlow demoDue demoSlow (drain_nil _ _)).1 3
      (by decide) (by decide) (by decide)).1⟩

/-- C18 as stated fails: node 1 with counter 4 adopts the "HW" timestamp 60000 through
`AdjustTimetamp`; `minTimeMs` changes from 50000 to 60000 and the counter is still 4. -/
theorem C18_HW_adoption_keeps_counter :
    demoNode.minTimeMs = 50000 ∧ demoNode.idCounter = 4 ∧
    (ProcessMulticast (some demoHint) demoNode demoMono).2.1.minTimeMs = 60000 ∧
    (ProcessMulticast (some demoHint) demoNode demoMono).2.1.idCounter = 4 ∧
    (ProcessMulticast (some demoHint) demoNode demoMono).2.1.idCounter ≠ 0 := by
  decide

/-- C18 amended: the advancement inside `GetId` resets the counter, so the id issued
right after it carries counter 0 and the counter is 1 when `GetId` returns.
`AdjustTimetamp` and `ProcessMulticast` never change the counter, so the adoption of an
"HW" timestamp leaves it as it is. After a successful `Initialize` of a newly
constructed node the counter is 0, as it was before the listen window. -/
theorem C18_counter_and_high_water :
    (∀ (q : List Datagram) (s : IdNode) (mono : Clock) (s1 : IdNode) (m1 : Clock) (k : Nat),
      drain q s mono = (s1, m1) → s1.IsValid = true → Inv s1 →
      (s1.idCounter ≥ MAX_COUNTER - 1 ∨ s1.minTimeMs = 0) → k < 11 →
      (∀ j, j < k → nowAt s1 m1 j ≤ s1.minTimeMs) → s1.minTimeMs < nowAt s1 m1 k →
      (GetId q s mono).1 =
        Except.ok (some (nowAt s1 m1 k % 2 ^ 44 * 2 ^ 20 + 0 * 2 ^ 10 + s1.nodeId)) ∧
      (GetId q s mono).2.1.minTimeMs = nowAt s1 m1 k ∧ (GetId q s mono).2.1.idCounter = 1) ∧
    (∀ (t : Nat) (s : IdNode) (mono : Clock), (AdjustTimetamp t s mono).1.idCounter = s.idCounter) ∧
    (∀ (recv : Option Datagram) (s : IdNode) (mono : Clock),
      (ProcessMulticast recv s mono).2.1.idCounter = s.idCounter) ∧
    (∀ (node : Nat) (disk : OpenResult IdNodeState) (net : NetEnv)
      (polls : List (Option Datagram)) (mono rt : Clock) (t : IdNode) (mono1 rt1 : Clock),
      Initialize node disk net polls IdNode.new mono rt = some (true, t, mono1, rt1) →
      t.idCounter = 0) := by
  refine ⟨fun q s mono s1 m1 k hd hv hinv hdue hk hbelow habove => ?_, fun _ _ _ => rfl,
    fun recv s mono => (ProcessMulticast_SameCore recv s mono).2.1,
    fun node disk net polls mono rt t mono1 rt1 h =>
      (Initialize_true node disk net polls IdNode.new rfl mono rt t mono1 rt1 h).2.2.2.1⟩
  obtain ⟨h1, h2, h3, _⟩ := GetId_advance q s mono s1 m1 k hd hv hinv hdue hk hbelow habove
  exact ⟨h1, h2, h3⟩

/-- Witness of C18: the advancement of node 1 with counter 1023 at the fourth attempt,
and the initialization `demoInit`, whose listen window raises the high-water mark
from 0 to 13000. -/
theorem C18_counter_and_high_water_witness :
    (GetId [] demoDue demoSlow).1 = Except.ok (some 52437188609) ∧
    (GetId [] demoDue demoSlow).2.1.minTimeMs = nowAt demoDue demoSlow 3 ∧
    (GetId [] demoDue demoSlow).2.1.idCounter = 1 ∧
    (nodeOf demoInit).minTimeMs = 13000 ∧ (nodeOf demoInit).idCounter = 0 := by
  have h := C18_counter_and_high_water.1 [] demoDue demoSlow demoDue demoSlow 3
    (drain_nil demoDue demoSlow) (by decide) (by decide) (by decide) (by decide) (by decide)
    (by decide)
  exact ⟨by decide, h.2.1, h.2.2, by decide,
    C18_counter_and_high_water.2.2.2 1 (OpenResult.existing 3 [default, default]) demoNet []
      demoMono demoRt (nodeOf demoInit) (monoOf demoInit) (rtOf demoInit) rfl⟩

/-! ## Reachable states -/

/-- `InitNetwork` keeps node id and counter. -/
theorem InitNetwork_SameCore (polls : List (Option Datagram)) (s : IdNode) (mono rt : Clock)
    (r : Bool × IdNode × Clock × Clock) (hr : InitNetwork polls s mono rt = some r) :
    r.2.1.nodeId = s.nodeId ∧ r.2.1.idCounter = s.idCounter ∧ r.2.1.uAddress = s.uAddress ∧
      r.2.1.state.id = s.state.id := by
  unfold InitNetwork at hr
  dsimp only [GetRtTimestampMs, Clock.read] at hr
  split at hr
  · cases hr
  · rename_i s1 m1 r2 hl
    obtain ⟨k1, k2, k3, _, k5⟩ := listen_SameCore _ polls s _ _ _ hl
    rw [← Option.some.inj hr]
    exact ⟨k1, k2, k3, k5⟩
  · rename_i s1 m1 r2 hl
    obtain ⟨k1, k2, k3, _, k5⟩ := listen_SameCore _ polls s _ _ _ hl
    dsimp only at k1 k2 k3 k5
    rw [← Option.some.inj hr]
    dsimp only
    split
    · obtain ⟨a1, a2, a3, _, a5⟩ :=
        AdjustTimetamp_SameCore ((rt 0 % 2 ^ 64 + LISTEN_TIME) % 2 ^ 64) s1 m1
      rcases ha : AdjustTimetamp ((rt 0 % 2 ^ 64 + LISTEN_TIME) % 2 ^ 64) s1 m1 with ⟨s2, m2⟩
      rw [ha] at a1 a2 a3 a5
      exact ⟨a1.trans k1, a2.trans k2, a3.trans k3, a5.trans k5⟩
    · exact ⟨k1, k2, k3, k5⟩

/-- `InitNode` keeps the counter, and the node id is the old one or the argument, which
is then below 1024. -/
theorem InitNode_ids (node : Nat) (disk : OpenResult IdNodeState) (net : NetEnv) (s : IdNode)
    (mono : Clock) :
    (InitNode node disk net s mono).2.1.idCounter = s.idCounter ∧
    ((InitNode node disk net s mono).2.1.nodeId = s.nodeId ∨
      ((InitNode node disk net s mono).2.1.nodeId = node ∧ node < MAX_NODES)) := by
  unfold InitNode
  split
  · exact ⟨rfl, Or.inl rfl⟩
  · rename_i hnode
    have hlt : node < MAX_NODES := by omega
    dsimp only
    split
    · exact ⟨rfl, Or.inr ⟨rfl, hlt⟩⟩
    · split
      · exact ⟨rfl, Or.inr ⟨rfl, hlt⟩⟩
      · split
        · exact ⟨rfl, Or.inr ⟨rfl, hlt⟩⟩
        · split
          · exact ⟨rfl, Or.inr ⟨rfl, hlt⟩⟩
          · exact ⟨rfl, Or.inr ⟨rfl, hlt⟩⟩

/-- One call of `GetId` on a node whose id and counter are below 1024, whatever the
rest of its state: the node id stays, the counter stays below 1024, and the call
either returns failure or calls `FieldsToId` with a counter below 1023, gets an id back
and returns it with the counter incremented. No exception is thrown. -/
theorem GetId_small (q : List Datagram) (s : IdNode) (mono : Clock)
    (hn : s.nodeId < MAX_NODES) (hc : s.idCounter < MAX_COUNTER) :
    (GetId q s mono).2.1.nodeId = s.nodeId ∧ (GetId q s mono).2.1.idCounter < MAX_COUNTER ∧
    ((GetId q s mono).1 = Except.ok none ∨
      ∃ c id, c < MAX_COUNTER - 1 ∧
        FieldsToId (GetId q s mono).2.1.minTimeMs c s.nodeId = Except.ok id ∧
        (GetId q s mono).1 = Except.ok (some id) ∧ (GetId q s mono).2.1.idCounter = c + 1) := by
  rw [MAX_NODES_eq] at hn
  rw [MAX_COUNTER_eq] at hc ⊢
  have kd := drain_SameCore q s mono
  unfold GetId
  rcases hd : drain q s mono with ⟨s1, mono1⟩
  rw [hd] at kd
  dsimp only at kd ⊢
  obtain ⟨n1, c1, _, _, _⟩ := kd
  split
  · exact ⟨n1, by rw [c1]; exact hc, Or.inl rfl⟩
  · split
    · have ku := UpdateTimestamp_SameCore s1 mono1
      rcases hup : UpdateTimestamp s1 mono1 with ⟨b, s2, mono2⟩
      rw [hup] at ku
      dsimp only at ku ⊢
      obtain ⟨n2, c2, _, _, _⟩ := ku
      cases b with
      | false => exact ⟨n2.trans n1, by rw [c2, c1]; exact hc, Or.inl rfl⟩
      | true =>
        dsimp only
        have hn2 : s2.nodeId < 1024 := by rw [n2, n1]; exact hn
        rw [GetId_issue_eq { s2 with idCounter := 0 } mono2 hn2 (show (0 : Nat) < 1024 by omega)]
        dsimp only
        refine ⟨n2.trans n1, by omega, Or.inr ⟨0, _, by omega, ?_, rfl, rfl⟩⟩
        rw [← n1, ← n2]
        exact FieldsToId_eq_sum _ _ _ (by omega) hn2
    · rename_i hcond
      rw [MAX_COUNTER_eq] at hcond
      have hn1 : s1.nodeId < 1024 := by rw [n1]; exact hn
      have hc1 : s1.idCounter < 1024 := by rw [c1]; exact hc
      rw [GetId_issue_eq s1 mono1 hn1 hc1]
      dsimp only
      refine ⟨n1, by omega, Or.inr ⟨s1.idCounter, _, by omega, ?_, rfl, rfl⟩⟩
      rw [← n1]
      exact FieldsToId_eq_sum _ _ _ hc1 hn1

/-- In every reachable state node id and counter are below 1024. -/
theorem Reachable_small (s : IdNode) (h : Reachable s) :
    s.nodeId < MAX_NODES ∧ s.idCounter < MAX_COUNTER := by
  induction h with
  | new => exact ⟨by decide, by decide⟩
  | InitNode s node disk net mono _ ih =>
    obtain ⟨hc, hn⟩ := InitNode_ids node disk net s mono
    refine ⟨?_, by rw [hc]; exact ih.2⟩
    rcases hn with hn | ⟨hn, hlt⟩
    · rw [hn]; exact ih.1
    · rw [hn]; exact hlt
  | InitNetwork s polls mono rt r _ hr ih =>
    obtain ⟨k1, k2, _, _⟩ := InitNetwork_SameCore polls s mono rt r hr
    exact ⟨by rw [k1]; exact ih.1, by rw [k2]; exact ih.2⟩
  | Initialize s node disk net polls mono rt r _ hr ih =>
    unfold DistId.Initialize at hr
    obtain ⟨hc, hn⟩ := InitNode_ids node disk net s mono
    rcases hi : DistId.InitNode node disk net s mono with ⟨b, s1, m1⟩
    rw [hi] at hr hc hn
    dsimp only at hr hc hn
    have h1 : s1.nodeId < MAX_NODES ∧ s1.idCounter < MAX_COUNTER := by
      refine ⟨?_, by rw [hc]; exact ih.2⟩
      rcases hn with hn | ⟨hn, hlt⟩
      · rw [hn]; exact ih.1
      · rw [hn]; exact hlt
    cases b with
    | false =>
      dsimp only at hr
      rw [← Option.some.inj hr]
      exact h1
    | true =>
      dsimp only at hr
      obtain ⟨k1, k2, _, _⟩ := InitNetwork_SameCore polls s1 m1 rt r hr
      exact ⟨by rw [k1]; exact h1.1, by rw [k2]; exact h1.2⟩
  | GetId s q mono _ ih =>
    obtain ⟨g1, g2, _⟩ := GetId_small q s mono ih.1 ih.2
    exact ⟨by rw [g1]; exact ih.1, g2⟩
  | ProcessMulticast s recv mono _ ih =>
    obtain ⟨k1, k2, _⟩ := ProcessMulticast_SameCore recv s mono
    exact ⟨by rw [k1]; exact ih.1, by rw [k2]; exact ih.2⟩
  | AdjustTimetamp s t mono _ ih => exact ih
  | UpdateTimestamp s mono _ ih =>
    obtain ⟨k1, k2, _⟩ := UpdateTimestamp_SameCore s mono
    exact ⟨by rw [k1]; exact ih.1, by rw [k2]; exact ih.2⟩
  | UpdateTimestampInner s mono _ ih =>
    obtain ⟨t, hs1, _, _⟩ := UpdateTimestampInner_loop_cases 11 s mono
    unfold DistId.UpdateTimestampInner
    rw [hs1]
    exact ih
  | EmitState s st _ ih => exact ih

/-- C20: in every reachable state of an `IdNode` the counter and the node id are
below 1024; every `GetId` call from such a state either reports failure through its
result or passes a counter below 1024 (in fact below 1023) to `FieldsToId`, which
returns the id; `GetId` never ends with the out-of-range exception. -/
theorem C20_FieldsToId_error_unreachable (s : IdNode) (hr : Reachable s) :
    s.idCounter < 1024 ∧ s.nodeId < 1024 ∧
    ∀ (q : List Datagram) (mono : Clock),
      (∀ e, (GetId q s mono).1 ≠ Except.error e) ∧
      ((GetId q s mono).1 = Except.ok none ∨
        ∃ c id, c < 1024 ∧ c < MAX_COUNTER - 1 ∧
          FieldsToId (GetId q s mono).2.1.minTimeMs c s.nodeId = Except.ok id ∧
          (GetId q s mono).1 = Except.ok (some id) ∧
          (GetId q s mono).2.1.idCounter = c + 1) := by
  obtain ⟨hn, hc⟩ := Reachable_small s hr
  have hn0 := hn
  have hc0 := hc
  rw [MAX_NODES_eq] at hn0
  rw [MAX_COUNTER_eq] at hc0
  refine ⟨hc0, hn0, fun q mono => ?_⟩
  obtain ⟨_, _, hres⟩ := GetId_small q s mono hn hc
  rcases hres with hnone | ⟨c, id, hclt, hf, hsome, hcnt⟩
  · exact ⟨fun e he => (by rw [hnone] at he; cases he), Or.inl hnone⟩
  · refine ⟨fun e he => (by rw [hsome] at he; cases he),
      Or.inr ⟨c, id, ?_, hclt, hf, hsome, hcnt⟩⟩
    rw [MAX_COUNTER_eq] at hclt
    omega

/-- Witness of C20: node 1 as `demoInit` leaves it is reachable, and its first `GetId`
returns an id. -/
theorem C20_FieldsToId_error_unreachable_witness :
    (GetId [] (nodeOf demoInit) (monoOf demoInit)).1 = Except.ok (some 13631488001) ∧
    (nodeOf demoInit).idCounter < 1024 ∧ (nodeOf demoInit).nodeId < 1024 ∧
    ∀ e, (GetId [] (nodeOf demoInit) (monoOf demoInit)).1 ≠ Except.error e := by
  have hr : Reachable (nodeOf demoInit) :=
    Reachable.Initialize IdNode.new 1 (OpenResult.existing 3 [default, default]) demoNet []
      demoMono demoRt (true, nodeOf demoInit, monoOf demoInit, rtOf demoInit) Reachable.new rfl
  have h := C20_FieldsToId_error_unreachable (nodeOf demoInit) hr
  exact ⟨by decide, h.1, h.2.1, (h.2.2 [] (monoOf demoInit)).1⟩

/-! ## Two nodes with one id -/

/-- The delta that `AdjustTimetamp` stores: timestamp minus base reading in `uint64_t`. -/
theorem AdjustTimetamp_delta (t : Nat) (s : IdNode) (mono : Clock) :
    (AdjustTimetamp t s mono).1.deltaTimeMs = (t + 2 ^ 64 - mono 0 % 2 ^ 64) % 2 ^ 64 := rfl

/-- C21: `AdjustTimetamp t` runs while the monotonic clock reads `b = mono 0 % 2^64`, and
`m = later k % 2^64` is a later reading with `b ≤ m` and `t + (m - b) < 2^64`. Then the
high-water mark is `t`, the stored delta is `t - b` modulo 2^64 (which is
`t + 2^64 - b` when `t < b`, and `t - b` otherwise), the value
`now = m + deltaTimeMs` computed modulo 2^64 is `t + (m - b)`, hence at least `t`, and
`GetCheckedTimestampMs` on that reading returns 1 with the high-water mark kept when
`m = b` and 0 with `t + (m - b)` when `m > b`, never -1. -/
theorem C21_now_is_high_water_plus_elapsed (t : Nat) (s : IdNode) (mono later : Clock) (k : Nat)
    (hm : mono 0 % 2 ^ 64 ≤ later k % 2 ^ 64)
    (hfit : t + (later k % 2 ^ 64 - mono 0 % 2 ^ 64) < 2 ^ 64) :
    (AdjustTimetamp t s mono).1.minTimeMs = t ∧
    (AdjustTimetamp t s mono).1.deltaTimeMs = (t + 2 ^ 64 - mono 0 % 2 ^ 64) % 2 ^ 64 ∧
    (t < mono 0 % 2 ^ 64 →
      (AdjustTimetamp t s mono).1.deltaTimeMs = t + 2 ^ 64 - mono 0 % 2 ^ 64) ∧
    (mono 0 % 2 ^ 64 ≤ t → (AdjustTimetamp t s mono).1.deltaTimeMs = t - mono 0 % 2 ^ 64) ∧
    nowAt (AdjustTimetamp t s mono).1 later k = t + (later k % 2 ^ 64 - mono 0 % 2 ^ 64) ∧
    t ≤ nowAt (AdjustTimetamp t s mono).1 later k ∧
    (later k % 2 ^ 64 = mono 0 % 2 ^ 64 →
      (GetCheckedTimestampMs t (AdjustTimetamp t s mono).1 (fun j => later (k + j))).1 = 1 ∧
      (GetCheckedTimestampMs t (AdjustTimetamp t s mono).1 (fun j => later (k + j))).2.1 = t) ∧
    (mono 0 % 2 ^ 64 < later k % 2 ^ 64 →
      (GetCheckedTimestampMs t (AdjustTimetamp t s mono).1 (fun j => later (k + j))).1 = 0 ∧
      (GetCheckedTimestampMs t (AdjustTimetamp t s mono).1 (fun j => later (k + j))).2.1 =
        t + (later k % 2 ^ 64 - mono 0 % 2 ^ 64)) := by
  have hd := AdjustTimetamp_delta t s mono
  have hb : mono 0 % 2 ^ 64 < 2 ^ 64 := Nat.mod_lt _ (by decide)
  have hnow : nowAt (AdjustTimetamp t s mono).1 later k =
      t + (later k % 2 ^ 64 - mono 0 % 2 ^ 64) := by
    unfold nowAt
    rw [hd]
    omega
  have h0 : nowAt (AdjustTimetamp t s mono).1 (fun j => later (k + j)) 0 =
      nowAt (AdjustTimetamp t s mono).1 later k := rfl
  refine ⟨rfl, hd, fun hlt => ?_, fun hle => ?_, hnow, ?_, fun heq => ?_, fun hlt => ?_⟩
  · rw [hd]; omega
  · rw [hd]; omega
  · rw [hnow]; omega
  · rw [GetCheckedTimestampMs_eq, h0, hnow]
    have e : t + (later k % 2 ^ 64 - mono 0 % 2 ^ 64) = t := by omega
    rw [e, if_neg (Nat.lt_irrefl t), if_pos rfl]
    exact ⟨rfl, rfl⟩
  · rw [GetCheckedTimestampMs_eq, h0, hnow]
    rw [if_neg (by omega), if_neg (by omega)]
    exact ⟨rfl, rfl⟩

/-- Witness of C21: the high-water mark 100 is set while the clock reads 5000, so the
delta wraps to 2^64 - 4900; at the reading 5007 `now` is 107. -/
theorem C21_now_is_high_water_plus_elapsed_witness :
    demoAdjusted.deltaTimeMs = 2 ^ 64 - 4900 ∧ nowAt demoAdjusted demoLater 0 = 107 ∧
    (100 ≤ nowAt demoAdjusted demoLater 0 ∧
      nowAt demoAdjusted demoBase 3 = 100 + (demoBase 3 % 2 ^ 64 - demoBase 0 % 2 ^ 64)) := by
  have h := C21_now_is_high_water_plus_elapsed 100 IdNode.new demoBase demoLater 0
    (by decide) (by decide)
  have h3 := C21_now_is_high_water_plus_elapsed 100 IdNode.new demoBase demoBase 3
    (by decide) (by decide)
  exact ⟨by decide, by decide, h.2.2.2.2.2.1, h3.2.2.2.2.1⟩

end DistId
